import Mathlib

/-
  Verification development for the hymnal backend's generic pagination and
  dynamic query-filtering engine (the CrudService class).

  The TypeScript source is shallowly embedded: JavaScript runtime values that
  can appear in filters are modelled by the inductive type FValue, JSON values
  produced by JSON.parse by JVal, structured query predicates by PVal, and the
  delegate's findMany by an executable function over an in-memory list of rows
  that follows the ORM's cursor/skip/take semantics (a negative take scans
  backward from the cursor row).  All definitions are computable so that every
  theorem can be checked on concrete inputs.
-/

namespace Hymnal

/-! ## JSON values and a model of JSON.parse / JSON.stringify -/

/-- JSON values as produced by the JavaScript JSON.parse.  A numeric literal
is kept exactly as a decimal mantissa and exponent: jnum m e denotes the
number m * 10 ^ e. -/
inductive JVal where
  | jnull
  | jbool (b : Bool)
  | jnum (m : Int) (e : Int)
  | jstr (s : String)
  | jarr (elems : List JVal)
  | jobj (fields : List (String × JVal))

/-- Whitespace characters accepted between JSON tokens. -/
def jsWs (c : Char) : Bool :=
  c = ' ' || c = '\t' || c = '\n' || c = '\r'

/-- Drop leading JSON whitespace. -/
def skipWs : List Char → List Char
  | [] => []
  | c :: cs => if jsWs c then skipWs cs else c :: cs

/-- Value of a hexadecimal digit. -/
def hexVal (c : Char) : Option Nat :=
  if c.isDigit then some (c.toNat - 48)
  else if 'a' ≤ c ∧ c ≤ 'f' then some (c.toNat - 87)
  else if 'A' ≤ c ∧ c ≤ 'F' then some (c.toNat - 55)
  else none

/-- Single-character JSON string escapes. -/
def escChar : Char → Option Char
  | '"' => some '"'
  | '\\' => some '\\'
  | '/' => some '/'
  | 'b' => some (Char.ofNat 8)
  | 'f' => some (Char.ofNat 12)
  | 'n' => some '\n'
  | 'r' => some '\r'
  | 't' => some '\t'
  | _ => none

/-- Parse the body of a JSON string literal (after the opening quote), up to
and including the closing quote.  Returns the decoded characters and the
remaining input. -/
def parseStrBody : List Char → Option (List Char × List Char)
  | [] => none
  | '"' :: cs => some ([], cs)
  | '\\' :: 'u' :: h1 :: h2 :: h3 :: h4 :: rest =>
    match hexVal h1, hexVal h2, hexVal h3, hexVal h4 with
    | some a, some b, some c, some d =>
      (parseStrBody rest).map fun p =>
        (Char.ofNat (((a * 16 + b) * 16 + c) * 16 + d) :: p.1, p.2)
    | _, _, _, _ => none
  | '\\' :: e :: rest =>
    match escChar e with
    | some ch => (parseStrBody rest).map fun p => (ch :: p.1, p.2)
    | none => none
  | [_] => none
  | c :: cs =>
    if c.toNat < 32 then none
    else (parseStrBody cs).map fun p => (c :: p.1, p.2)

/-- Longest digit prefix of a character list, with the remainder. -/
def takeDigits (l : List Char) : List Char × List Char :=
  (l.takeWhile Char.isDigit, l.dropWhile Char.isDigit)

/-- Numeric value of a digit string. -/
def digitsToNat (ds : List Char) : Nat :=
  ds.foldl (fun a c => a * 10 + (c.toNat - 48)) 0

/-- Parse a JSON number literal.  Follows the JSON grammar: optional minus,
integer part without leading zeros, optional fraction, optional exponent.
Returns mantissa, decimal exponent and the remaining input. -/
def parseNum (l : List Char) : Option (Int × Int × List Char) :=
  let sl : Int × List Char :=
    match l with
    | '-' :: r => (-1, r)
    | _ => (1, l)
  let sgn := sl.1
  let l1 := sl.2
  let ipr := takeDigits l1
  let ip := ipr.1
  let r1 := ipr.2
  if ip.isEmpty then none
  else if 1 < ip.length ∧ ip.headD 'x' = '0' then none
  else
    let fracRes : Option (List Char × List Char) :=
      match r1 with
      | '.' :: r =>
        let fr := takeDigits r
        if fr.1.isEmpty then none else some fr
      | _ => some ([], r1)
    match fracRes with
    | none => none
    | some (fp, r2) =>
      let expRes : Option (Int × List Char) :=
        match r2 with
        | 'e' :: r | 'E' :: r =>
          let esr : Int × List Char :=
            match r with
            | '+' :: rr => (1, rr)
            | '-' :: rr => (-1, rr)
            | _ => (1, r)
          let edr := takeDigits esr.2
          if edr.1.isEmpty then none
          else some (esr.1 * (digitsToNat edr.1 : Int), edr.2)
        | _ => some (0, r2)
      match expRes with
      | none => none
      | some (ex, r4) =>
        some (sgn * ((digitsToNat (ip ++ fp) : Nat) : Int), ex - (fp.length : Int), r4)

mutual

/-- Fueled recursive-descent parser for a JSON value.  The fuel only bounds
the nesting recursion; any fuel of at least the input length suffices. -/
def parseVal : Nat → List Char → Option (JVal × List Char)
  | 0, _ => none
  | fuel + 1, l =>
    match skipWs l with
    | 'n' :: 'u' :: 'l' :: 'l' :: r => some (.jnull, r)
    | 't' :: 'r' :: 'u' :: 'e' :: r => some (.jbool true, r)
    | 'f' :: 'a' :: 'l' :: 's' :: 'e' :: r => some (.jbool false, r)
    | '"' :: r => (parseStrBody r).map fun p => (.jstr (String.mk p.1), p.2)
    | '[' :: r =>
      (match skipWs r with
       | ']' :: r2 => some (.jarr [], r2)
       | r2 => (parseElems fuel r2).map fun p => (.jarr p.1, p.2))
    | '{' :: r =>
      (match skipWs r with
       | '}' :: r2 => some (.jobj [], r2)
       | r2 => (parseFields fuel r2).map fun p => (.jobj p.1, p.2))
    | l2 => (parseNum l2).map fun p => (.jnum p.1 p.2.1, p.2.2)

/-- Parse the elements of a non-empty JSON array, up to the closing bracket. -/
def parseElems : Nat → List Char → Option (List JVal × List Char)
  | 0, _ => none
  | fuel + 1, l =>
    match parseVal fuel l with
    | none => none
    | some (v, r) =>
      match skipWs r with
      | ',' :: r2 => (parseElems fuel r2).map fun p => (v :: p.1, p.2)
      | ']' :: r2 => some ([v], r2)
      | _ => none

/-- Parse the members of a non-empty JSON object, up to the closing brace. -/
def parseFields : Nat → List Char → Option (List (String × JVal) × List Char)
  | 0, _ => none
  | fuel + 1, l =>
    match skipWs l with
    | '"' :: r =>
      (match parseStrBody r with
       | none => none
       | some (k, r2) =>
         match skipWs r2 with
         | ':' :: r3 =>
           (match parseVal fuel r3 with
            | none => none
            | some (v, r4) =>
              match skipWs r4 with
              | ',' :: r5 => (parseFields fuel r5).map fun p => ((String.mk k, v) :: p.1, p.2)
              | '}' :: r5 => some ([(String.mk k, v)], r5)
              | _ => none)
         | _ => none)
    | _ => none

end

/-- Model of the JavaScript JSON.parse: returns the parsed value, or none
when JSON.parse would throw a SyntaxError. -/
def parseJson (s : String) : Option JVal :=
  match parseVal (2 * s.length + 2) s.data with
  | some (v, rest) => if (skipWs rest).isEmpty then some v else none
  | none => none

/-! ### Computable string primitives

The string functions of the standard library that walk byte positions do
not reduce inside the kernel, so the JavaScript string operations the
source uses are modelled directly over character lists.  The case mappings
are ASCII, which covers every operator name, enum value and switch literal
the engine compares. -/

/-- ASCII toLowerCase. -/
def lowerStr (s : String) : String := String.mk (s.data.map Char.toLower)

/-- ASCII toUpperCase. -/
def upperStr (s : String) : String := String.mk (s.data.map Char.toUpper)

/-- Whitespace trimmed by the JavaScript trim. -/
def wsb (c : Char) : Bool :=
  c = ' ' || c = '\t' || c = '\n' || c = '\r' || c.toNat = 11 || c.toNat = 12

/-- JavaScript String.prototype.trim. -/
def trimStr (s : String) : String :=
  String.mk (((s.data.dropWhile wsb).reverse.dropWhile wsb).reverse)

/-- JavaScript String.prototype.split on a single-character separator. -/
def splitOnC (c : Char) : List Char → List (List Char)
  | [] => [[]]
  | x :: xs =>
    let r := splitOnC c xs
    if x = c then [] :: r
    else
      match r with
      | [] => [[x]]
      | h :: t => (x :: h) :: t

/-- Join with a separator. -/
def joinSep (sep : String) : List String → String
  | [] => ""
  | [x] => x
  | x :: xs => x ++ sep ++ joinSep sep xs

/-- Hexadecimal digit for a value below 16. -/
def hexDigit (n : Nat) : Char :=
  if n < 10 then Char.ofNat (48 + n) else Char.ofNat (87 + n)

/-- JSON string escaping as performed by JSON.stringify. -/
def escJChar (c : Char) : List Char :=
  if c = '"' then ['\\', '"']
  else if c = '\\' then ['\\', '\\']
  else if c = '\n' then ['\\', 'n']
  else if c = '\r' then ['\\', 'r']
  else if c = '\t' then ['\\', 't']
  else if c.toNat = 8 then ['\\', 'b']
  else if c.toNat = 12 then ['\\', 'f']
  else if c.toNat < 32 then
    ['\\', 'u', '0', '0', hexDigit (c.toNat / 16), hexDigit (c.toNat % 16)]
  else [c]

/-- Render a JSON string literal including its quotes. -/
def quoteJStr (s : String) : String :=
  String.mk ('"' :: (s.data.flatMap escJChar) ++ ['"'])

/-- Digits of a natural number, most significant first. -/
def natDigits (n : Nat) : List Char :=
  (toString n).data

/-- Canonical decimal rendering of the number m * 10 ^ e, mirroring the
JavaScript number-to-string conversion on decimal values (the exponential
notation used by JavaScript for very large or very small magnitudes is not
reproduced; no claim exercises it). -/
def numToString (m : Int) (e : Int) : String :=
  if 0 ≤ e then toString (m * 10 ^ e.toNat)
  else
    let k := e.natAbs
    let sgn := if m < 0 then "-" else ""
    let ds := natDigits m.natAbs
    let ds := if ds.length ≤ k then List.replicate (k + 1 - ds.length) '0' ++ ds else ds
    let ipart := ds.take (ds.length - k)
    let fpart := (ds.drop (ds.length - k)).reverse.dropWhile (· = '0') |>.reverse
    if fpart.isEmpty then sgn ++ String.mk ipart
    else sgn ++ String.mk ipart ++ "." ++ String.mk fpart

/-! ## JavaScript runtime values and coercions -/

/-- JavaScript runtime values that can appear as filter values.  fundefined
models the JavaScript undefined, fnan the number NaN, and fdate a Date
object whose payload is its epoch-millisecond timestamp (none models an
Invalid Date).  A finite numeric value is the exact decimal m * 10 ^ e. -/
inductive FValue where
  | fundefined
  | fnull
  | fnan
  | fbool (b : Bool)
  | fnum (m : Int) (e : Int)
  | fstr (s : String)
  | fdate (t : Option Int)
  | farr (elems : List FValue)
  | fobj (fields : List (String × FValue))

/-- JavaScript truthiness of a value. -/
def jsTruthy : FValue → Bool
  | .fundefined => false
  | .fnull => false
  | .fnan => false
  | .fbool b => b
  | .fnum m _ => m ≠ 0
  | .fstr s => s ≠ ""
  | .fdate _ => true
  | .farr _ => true
  | .fobj _ => true

/-- JavaScript truthiness of a parsed JSON value. -/
def jvalTruthy : JVal → Bool
  | .jnull => false
  | .jbool b => b
  | .jnum m _ => m ≠ 0
  | .jstr s => s ≠ ""
  | .jarr _ => true
  | .jobj _ => true

mutual

/-- Embed a parsed JSON value into the runtime value type. -/
def fOfJ : JVal → FValue
  | .jnull => .fnull
  | .jbool b => .fbool b
  | .jnum m e => .fnum m e
  | .jstr s => .fstr s
  | .jarr l => .farr (fOfJList l)
  | .jobj l => .fobj (fOfJFields l)

def fOfJList : List JVal → List FValue
  | [] => []
  | v :: vs => fOfJ v :: fOfJList vs

def fOfJFields : List (String × JVal) → List (String × FValue)
  | [] => []
  | (k, v) :: vs => (k, fOfJ v) :: fOfJFields vs

end

/-- The nullish-coalescing operator a ?? b on a possibly-absent left operand
(none models an absent key, which reads as undefined). -/
def nullish (a : Option FValue) (b : Option FValue) : Option FValue :=
  match a with
  | none => b
  | some .fundefined => b
  | some .fnull => b
  | some v => some v

/-! ### Calendar arithmetic for the Date model -/

/-- Gregorian leap-year test. -/
def isLeap (y : Int) : Bool :=
  (y % 4 = 0 && y % 100 ≠ 0) || y % 400 = 0

/-- Number of days in a month. -/
def daysInMonth (y : Int) (mo : Nat) : Nat :=
  if mo = 2 then (if isLeap y then 29 else 28)
  else if mo = 4 || mo = 6 || mo = 9 || mo = 11 then 30
  else 31

/-- Days from the Unix epoch to the given civil date (standard civil-date
algorithm, valid for all Gregorian dates). -/
def daysFromCivil (y : Int) (mo d : Nat) : Int :=
  let y2 : Int := if (mo : Int) ≤ 2 then y - 1 else y
  let era : Int := (if 0 ≤ y2 then y2 else y2 - 399) / 400
  let yoe : Int := y2 - era * 400
  let mp : Int := ((mo : Int) + 9) % 12
  let doy : Int := (153 * mp + 2) / 5 + (d : Int) - 1
  let doe : Int := yoe * 365 + yoe / 4 - yoe / 100 + doy
  era * 146097 + doe - 719468

/-- Civil date from days since the Unix epoch (inverse of daysFromCivil). -/
def civilFromDays (z0 : Int) : Int × Nat × Nat :=
  let z := z0 + 719468
  let era : Int := (if 0 ≤ z then z else z - 146096) / 146097
  let doe : Int := z - era * 146097
  let yoe : Int := (doe - doe / 1460 + doe / 36524 - doe / 146096) / 365
  let y : Int := yoe + era * 400
  let doy : Int := doe - (365 * yoe + yoe / 4 - yoe / 100)
  let mp : Int := (5 * doy + 2) / 153
  let d : Int := doy - (153 * mp + 2) / 5 + 1
  let m : Int := if mp < 10 then mp + 3 else mp - 9
  (if m ≤ 2 then y + 1 else y, m.toNat, d.toNat)

/-- Two-digit number from its digit characters. -/
def digits2 (a b : Char) : Nat :=
  (a.toNat - 48) * 10 + (b.toNat - 48)

/-- Character-level digit test. -/
def isD (c : Char) : Bool := c.isDigit

/-- Match of the trailing part of the ISO-like date regular expression,
that is of (.\d+)?(Z|[+-]\d{2}:\d{2})? against the whole input, where the
dot of the fraction group matches any character.  The regular-expression
engine may end the digit group early to let the rest match, so every split
is tried. -/
def tzMatch : List Char → Bool
  | ['Z'] => true
  | ['z'] => true
  | [s, h1, h2, ':', m1, m2] =>
    (s = '+' || s = '-') && isD h1 && isD h2 && isD m1 && isD m2
  | _ => false

def fracTzMatch (l : List Char) : Bool :=
  l.isEmpty || tzMatch l ||
  (match l with
   | [] => false
   | _ :: rest =>
     let ds := rest.takeWhile isD
     !ds.isEmpty && (List.range ds.length).any fun k =>
       let r2 := rest.drop (k + 1)
       r2.isEmpty || tzMatch r2)

/-- The source's ISO-8601-like date regular expression
^\d{4}-\d{2}-\d{2}(T\d{2}:\d{2}:\d{2}(.\d+)?(Z|[+-]\d{2}:\d{2})?)?$ with the
i flag, as a character-list matcher. -/
def dateRegexMatch : List Char → Bool
  | y1 :: y2 :: y3 :: y4 :: '-' :: a1 :: a2 :: '-' :: d1 :: d2 :: rest =>
    isD y1 && isD y2 && isD y3 && isD y4 && isD a1 && isD a2 && isD d1 && isD d2 &&
    (rest.isEmpty ||
     match rest with
     | t :: h1 :: h2 :: ':' :: i1 :: i2 :: ':' :: s1 :: s2 :: rest2 =>
       (t = 'T' || t = 't') && isD h1 && isD h2 && isD i1 && isD i2 &&
       isD s1 && isD s2 && fracTzMatch rest2
     | _ => false)
  | _ => false

/-- Validity and timestamp of the fraction-and-offset tail of an ISO time
string: optional dot followed by digits, then an optional Z or signed
hh:mm offset.  Returns the fractional milliseconds together with the offset
in minutes, or none when the tail is not a valid ISO tail. -/
def parseIsoTail (l : List Char) : Option (Nat × Int × Bool) :=
  let fr : Option (List Char × List Char) :=
    match l with
    | '.' :: more =>
      let ds := more.takeWhile isD
      if ds.isEmpty then none else some (ds, more.dropWhile isD)
    | _ => some ([], l)
  match fr with
  | none => none
  | some (ds, rest) =>
    let ms := digitsToNat ((ds ++ ['0', '0', '0']).take 3)
    let fracZero := ds.all (· = '0')
    match rest with
    | [] => some (ms, 0, fracZero)
    | ['Z'] => some (ms, 0, fracZero)
    | ['z'] => some (ms, 0, fracZero)
    | [s, h1, h2, ':', m1, m2] =>
      if (s = '+' || s = '-') && isD h1 && isD h2 && isD m1 && isD m2 then
        let hh := digits2 h1 h2
        let mm := digits2 m1 m2
        if hh ≤ 23 ∧ mm ≤ 59 then
          let off : Int := (hh * 60 + mm : Nat)
          some (ms, if s = '-' then -off else off, fracZero)
        else none
      else none
    | _ => none

/-- Model of the JavaScript Date.parse on ISO-8601-like strings: returns the
epoch-millisecond timestamp, or none when Date.parse yields NaN.  Component
ranges are validated (month 1-12, day within the month, minute and second at
most 59, hour at most 23 except that hour 24 is accepted when the remaining
time components are zero).  Other textual date formats accepted by some
JavaScript engines are outside the modelled domain; the source only consults
Date.parse on strings matching the ISO-like regular expression. -/
def jsDateParseIso : List Char → Option Int
  | y1 :: y2 :: y3 :: y4 :: '-' :: a1 :: a2 :: '-' :: d1 :: d2 :: rest =>
    if isD y1 && isD y2 && isD y3 && isD y4 && isD a1 && isD a2 && isD d1 && isD d2 then
      let y : Int := (digits2 y1 y2 * 100 + digits2 y3 y4 : Nat)
      let mo := digits2 a1 a2
      let d := digits2 d1 d2
      if 1 ≤ mo ∧ mo ≤ 12 ∧ 1 ≤ d ∧ d ≤ daysInMonth y mo then
        let dayMs : Int := daysFromCivil y mo d * 86400000
        match rest with
        | [] => some dayMs
        | t :: h1 :: h2 :: ':' :: i1 :: i2 :: ':' :: s1 :: s2 :: rest2 =>
          if (t = 'T' || t = 't') && isD h1 && isD h2 && isD i1 && isD i2 &&
             isD s1 && isD s2 then
            match parseIsoTail rest2 with
            | none => none
            | some (ms, off, fracZero) =>
              let hh := digits2 h1 h2
              let mi := digits2 i1 i2
              let ss := digits2 s1 s2
              if mi ≤ 59 ∧ ss ≤ 59 ∧
                 (hh ≤ 23 ∨ (hh = 24 ∧ mi = 0 ∧ ss = 0 ∧ fracZero)) then
                some (dayMs + ((hh * 3600 + mi * 60 + ss : Nat) : Int) * 1000 + (ms : Int)
                        - off * 60000)
              else none
          else none
        | _ => none
      else none
    else none
  | _ => none

/-- Two-digit zero-padded rendering. -/
def pad2 (n : Nat) : String :=
  if n < 10 then "0" ++ toString n else toString n

/-- Three-digit zero-padded rendering. -/
def pad3 (n : Nat) : String :=
  if n < 10 then "00" ++ toString n
  else if n < 100 then "0" ++ toString n
  else toString n

/-- Model of Date.prototype.toISOString on a valid timestamp. -/
def isoStringOfMs (t : Int) : String :=
  let day := Int.fdiv t 86400000
  let rem := (Int.fmod t 86400000).toNat
  let ymd := civilFromDays day
  let y := ymd.1
  let mo := ymd.2.1
  let d := ymd.2.2
  let hh := rem / 3600000
  let mi := rem % 3600000 / 60000
  let ss := rem % 60000 / 1000
  let ms := rem % 1000
  toString y ++ "-" ++ pad2 mo ++ "-" ++ pad2 d ++ "T" ++ pad2 hh ++ ":" ++
    pad2 mi ++ ":" ++ pad2 ss ++ "." ++ pad3 ms ++ "Z"

/-! ## JavaScript coercions -/

/-- Decimal-literal part of the JavaScript Number() coercion on strings:
optional sign, digits and/or fraction, optional exponent, drawn from the
whole input.  Returns mantissa and exponent. -/
def numLit (l : List Char) : Option (Int × Int) :=
  let sl : Int × List Char :=
    match l with
    | '-' :: r => (-1, r)
    | '+' :: r => (1, r)
    | _ => (1, l)
  let ipr := takeDigits sl.2
  let ip := ipr.1
  let fpr : List Char × List Char :=
    match ipr.2 with
    | '.' :: r => takeDigits r
    | _ => ([], ipr.2)
  let fp := fpr.1
  let r2 := if ipr.2.headD ' ' = '.' then fpr.2 else ipr.2
  if ip.isEmpty ∧ fp.isEmpty then none
  else
    let er : Option (Int × List Char) :=
      match r2 with
      | 'e' :: r | 'E' :: r =>
        let esr : Int × List Char :=
          match r with
          | '+' :: rr => (1, rr)
          | '-' :: rr => (-1, rr)
          | _ => (1, r)
        let edr := takeDigits esr.2
        if edr.1.isEmpty then none else some (esr.1 * (digitsToNat edr.1 : Int), edr.2)
      | _ => some (0, r2)
    match er with
    | none => none
    | some (ex, r4) =>
      if r4.isEmpty then
        some (sl.1 * ((digitsToNat (ip ++ fp) : Nat) : Int), ex - (fp.length : Int))
      else none

/-- JavaScript Number() on a string: whitespace-trimmed empty string is 0, a
decimal numeric literal is its exact value, anything else is NaN.  The
hexadecimal, octal, binary and Infinity literals JavaScript also accepts are
outside the modelled domain (no schema in the repository produces them). -/
def jsStrToNumber (s : String) : FValue :=
  let t := trimStr s
  if t = "" then .fnum 0 0
  else
    match numLit t.data with
    | some p => .fnum p.1 p.2
    | none => .fnan

/-- JavaScript Number() coercion.  For a single-element array the element is
coerced after the implicit toString round trip, which agrees with coercing
the element directly for the primitive values that occur in filters. -/
def jsNumberOf : FValue → FValue
  | .fundefined => .fnan
  | .fnull => .fnum 0 0
  | .fnan => .fnan
  | .fbool b => .fnum (if b then 1 else 0) 0
  | .fnum m e => .fnum m e
  | .fstr s => jsStrToNumber s
  | .fdate (some t) => .fnum t 0
  | .fdate none => .fnan
  | .farr [] => .fnum 0 0
  | .farr [.fundefined] => .fnum 0 0
  | .farr [.fnull] => .fnum 0 0
  | .farr [v] => jsNumberOf v
  | .farr _ => .fnan
  | .fobj _ => .fnan

/-- Truncate an exact decimal m * 10 ^ e to an integer, toward zero, as the
JavaScript ToIntegerOrInfinity does. -/
def decToIntTrunc (m : Int) (e : Int) : Int :=
  if 0 ≤ e then m * 10 ^ e.toNat else Int.tdiv m (10 ^ e.natAbs)

/-- Exact integer value of the decimal m * 10 ^ e, when it is an integer. -/
def decToIntExact (m : Int) (e : Int) : Option Int :=
  if 0 ≤ e then some (m * 10 ^ e.toNat)
  else if Int.tmod m (10 ^ e.natAbs) = 0 then some (Int.tdiv m (10 ^ e.natAbs))
  else none

mutual

/-- JavaScript String() coercion.  String() on a Date produces a
locale-dependent textual form; it is rendered here as the ISO string, which
no service path can observe because the type inferencer never classifies a
Date value as a string. -/
def jsStringOf : FValue → String
  | .fundefined => "undefined"
  | .fnull => "null"
  | .fnan => "NaN"
  | .fbool b => if b then "true" else "false"
  | .fnum m e => numToString m e
  | .fstr s => s
  | .fdate (some t) => isoStringOfMs t
  | .fdate none => "Invalid Date"
  | .farr l => joinSep "," (jsStringList l)
  | .fobj _ => "[object Object]"

def jsStringList : List FValue → List String
  | [] => []
  | .fundefined :: vs => "" :: jsStringList vs
  | .fnull :: vs => "" :: jsStringList vs
  | v :: vs => jsStringOf v :: jsStringList vs

end

/-- Opening brace character. -/
def lbr : Char := Char.ofNat 123

/-- Closing brace character. -/
def rbr : Char := Char.ofNat 125

mutual

/-- JSON.stringify on a runtime value: none models the undefined result.
Undefined-valued object properties are dropped, undefined array elements
serialize as null, Dates serialize through toISOString, NaN serializes as
null. -/
def stringifyF : FValue → Option String
  | .fundefined => none
  | .fnull => some "null"
  | .fnan => some "null"
  | .fbool b => some (if b then "true" else "false")
  | .fnum m e => some (numToString m e)
  | .fstr s => some (quoteJStr s)
  | .fdate (some t) => some (quoteJStr (isoStringOfMs t))
  | .fdate none => some "null"
  | .farr l => some ("[" ++ joinSep "," (stringifyFList l) ++ "]")
  | .fobj l =>
    some (String.mk [lbr] ++ joinSep "," (stringifyFFields l) ++ String.mk [rbr])

def stringifyFList : List FValue → List String
  | [] => []
  | v :: vs => ((stringifyF v).getD "null") :: stringifyFList vs

def stringifyFFields : List (String × FValue) → List String
  | [] => []
  | (k, v) :: vs =>
    match stringifyF v with
    | some s => (quoteJStr k ++ ":" ++ s) :: stringifyFFields vs
    | none => stringifyFFields vs

end

/-- The safeStr helper of the source: empty string for null and undefined,
JSON.stringify for objects, String() otherwise. -/
def safeStrF : FValue → String
  | .fundefined => ""
  | .fnull => ""
  | .fdate t => (stringifyF (.fdate t)).getD ""
  | .farr l => (stringifyF (.farr l)).getD ""
  | .fobj l => (stringifyF (.fobj l)).getD ""
  | v => jsStringOf v

/-- The new Date(value) constructor: Dates pass through, numbers are taken
as epoch milliseconds, null and booleans coerce through Number, strings are
parsed (modelled on the ISO-like domain the service can reach), and
undefined, NaN and composite values yield an Invalid Date. -/
def jsNewDate : FValue → FValue
  | .fdate t => .fdate t
  | .fnum m e => .fdate (some (decToIntTrunc m e))
  | .fnan => .fdate none
  | .fbool b => .fdate (some (if b then 1 else 0))
  | .fnull => .fdate (some 0)
  | .fundefined => .fdate none
  | .fstr s => .fdate (jsDateParseIso s.data)
  | .farr _ => .fdate none
  | .fobj _ => .fdate none

/-! ## Structured predicates and the query schema -/

/-- Structured query predicates: the mapping trees handed to the ORM.  A pv
leaf is a raw runtime value placed into the predicate. -/
inductive PVal where
  | pv (v : FValue)
  | pobj (fields : List (String × PVal))
  | parr (elems : List PVal)

/-- JavaScript truthiness of a predicate value: objects and arrays are
always truthy, including the empty object. -/
def pvalTruthy : PVal → Bool
  | .pv v => jsTruthy v
  | .pobj _ => true
  | .parr _ => true

/-- Filter maps: field name to runtime value. -/
abbrev Filters := List (String × FValue)

/-- Property access filters[k]: undefined when the key is absent. -/
def lookupF (filters : Filters) (k : String) : FValue :=
  match filters.find? (fun p => p.1 == k) with
  | some p => p.2
  | none => .fundefined

/-- The seven data-type tags of the filter engine. -/
inductive DataType where
  | string
  | number
  | boolean
  | date
  | json
  | array
  | enum
deriving DecidableEq, Repr

/-- A structured schema entry: key, optional declared data type, declared
enum values, and the where callback producing a predicate contribution
(none models a callback returning undefined or null). -/
structure QSchema where
  key : String
  dataType : Option DataType
  enumValues : List String
  whereFn : FValue → Filters → Option PVal

/-- A field-schema entry: either a compact string directive or a structured
entry. -/
inductive SEntry where
  | sstr (s : String)
  | sfun (q : QSchema)

/-- The enum-typed schema check opening inferDataType: the schema declares
dataType enum with a nonempty enumValues list containing the lowercased
safeStr rendering of the value. -/
def enumSchemaMatch (value : FValue) (schema : Option QSchema) : Bool :=
  match schema with
  | some q =>
    q.dataType = some .enum && !q.enumValues.isEmpty &&
      (q.enumValues.map lowerStr).contains (lowerStr (safeStrF value))
  | none => false

/-- The numeric-string regular expression of the source,
^-?\d+(\.\d+)?$, applied to the trimmed value. -/
def numStrMatch (l : List Char) : Bool :=
  let l1 := match l with
    | '-' :: r => r
    | _ => l
  let ipr := takeDigits l1
  !ipr.1.isEmpty &&
    (ipr.2.isEmpty ||
      match ipr.2 with
      | '.' :: r2 =>
        let fr := takeDigits r2
        !fr.1.isEmpty && fr.2.isEmpty
      | _ => false)

/-- Model of inferDataType (source lines 1454-1525): explicit enum schema
match, then null and undefined, arrays, Date instances; for strings the
numeric-string test, the boolean-string test, a JSON.parse attempt that
classifies objects and arrays as json, and only when JSON.parse throws the
ISO-like date test; primitive numbers, booleans and plain objects fall to
their typeof tags; everything else is a string.  The source's inner
Array.isArray(parsed) branch is unreachable because a parsed array already
satisfies the object branch, exactly as in JavaScript. -/
def inferDataType (value : FValue) (schema : Option QSchema) : DataType :=
  if enumSchemaMatch value schema then .enum
  else
    match value with
    | .fundefined => .string
    | .fnull => .string
    | .farr _ => .array
    | .fdate _ => .date
    | .fstr s =>
      if numStrMatch (trimStr s).data then .number
      else if lowerStr s = "true" ∨ lowerStr s = "false" then .boolean
      else
        match parseJson s with
        | some (.jobj _) => .json
        | some (.jarr _) => .json
        | some _ => .string
        | none =>
          if dateRegexMatch s.data ∧ (jsDateParseIso s.data).isSome then .date
          else .string
    | .fnum _ _ => .number
    | .fnan => .number
    | .fbool _ => .boolean
    | .fobj _ => .json

/-! ## Predicate records -/

/-- A predicate record: the top-level where object, as an ordered list of
properties (JavaScript objects preserve string-key insertion order). -/
abbrev Rec := List (String × PVal)

/-- Property assignment r[k] = v: overrides in place, otherwise appends. -/
def recSet (r : Rec) (k : String) (v : PVal) : Rec :=
  if r.any (fun p => p.1 == k) then r.map (fun p => if p.1 == k then (k, v) else p)
  else r ++ [(k, v)]

/-- Property read. -/
def recGet (r : Rec) (k : String) : Option PVal :=
  (r.find? (fun p => p.1 == k)).map (fun p => p.2)

/-- Object spread merge, later keys override earlier ones in place. -/
def mergeRecords (a b : Rec) : Rec :=
  b.foldl (fun acc p => recSet acc p.1 p.2) a

/-- Undefined test. -/
def isUndefined : FValue → Bool
  | .fundefined => true
  | _ => false

/-- The Array.isArray test. -/
def isArrF : FValue → Bool
  | .farr _ => true
  | _ => false

/-- The nullish-coalescing operator on runtime values. -/
def fNullish (a b : FValue) : FValue :=
  match a with
  | .fundefined => b
  | .fnull => b
  | v => v

/-- The three text-search operators. -/
def isTextSearchOperator (op : String) : Bool :=
  op == "contains" || op == "startsWith" || op == "endsWith"

/-- Split a string schema directive on the first bar: key and operator, the
operator defaulting to contains when absent. -/
def splitSchemaStr (s : String) : String × String :=
  match splitOnC '|' s.data with
  | [] => ("", "contains")
  | [k] => (String.mk k, "contains")
  | k :: op :: _ => (String.mk k, String.mk op)

/-- The relation test q.match of the source: the directive contains a dot
or a colon anywhere. -/
def hasDotColon (s : String) : Bool :=
  s.data.any (fun c => c = '.' || c = ':')

/-- JSON.parse a string value, keep other values as they are (used by the
json branches of the predicate builder; a string only reaches those branches
when the type inferencer already parsed it successfully, so the source's
uncaught-throw path is unreachable and the string is kept unchanged here). -/
def jsonParsedOrSelf : FValue → FValue
  | .fstr s =>
    (match parseJson s with
     | some j => fOfJ j
     | none => .fstr s)
  | v => v

/-- Model of createFilterCondition (source lines 1019-1173): the structured
predicate for one operator, value and inferred or declared data type.  The
branch order follows the source: text operators on strings, comparison and
membership operators on numbers, the per-type equals branch, the array,
json and enum operator families, and the final passthrough fallback
returning the object with the raw operator and value. -/
def createFilterCondition (op : String) (value : FValue) (dataType : DataType) : PVal :=
  if isTextSearchOperator op ∧ dataType = .string then
    .pobj [(op, .pv value), ("mode", .pv (.fstr "insensitive"))]
  else if (op = "gt" ∨ op = "gte" ∨ op = "lt" ∨ op = "lte") ∧ dataType = .number then
    .pobj [(op, .pv (jsNumberOf value))]
  else if (op = "in" ∨ op = "notIn") ∧ dataType = .number then
    let values : List FValue :=
      match value with
      | .farr l => l.map jsNumberOf
      | v => [jsNumberOf v]
    .pobj [(op, .parr (values.map .pv))]
  else if op = "equals" then
    match dataType with
    | .number => .pobj [("equals", .pv (jsNumberOf value))]
    | .boolean =>
      .pobj [("equals", .pv (.fbool (match value with
        | .fbool true => true
        | .fstr s => s = "true"
        | _ => false)))]
    | .date =>
      .pobj [("equals", .pv (match value with
        | .fdate t => .fdate t
        | v => jsNewDate v))]
    | .json => .pobj [("equals", .pv (jsonParsedOrSelf value))]
    | .array =>
      .pobj [("equals", .pv (match value with
        | .farr l => .farr l
        | v => .farr [v]))]
    | _ => .pobj [("equals", .pv value)]
  else if dataType = .array ∧
      (op = "has" ∨ op = "hasEvery" ∨ op = "hasSome" ∨ op = "array_contains" ∨
       op = "overlap" ∨ op = "isEmpty" ∨ op = "isNotEmpty") then
    let arrayValue : List FValue :=
      match value with
      | .farr l => l
      | v => [v]
    if op = "has" ∨ op = "hasEvery" ∨ op = "hasSome" then
      .pobj [(op, .parr (arrayValue.map .pv))]
    else if op = "array_contains" then
      .pobj [("array_contains", .parr (arrayValue.map .pv))]
    else if op = "overlap" then
      .pobj [("array_overlaps", .parr (arrayValue.map .pv))]
    else if op = "isEmpty" then
      .pobj [("isEmpty", .pv (.fbool true))]
    else
      .pobj [("isEmpty", .pv (.fbool false))]
  else if dataType = .json ∧
      (op = "path" ∨ op = "contains" ∨ op = "containedBy" ∨ op = "hasKey" ∨
       (op = "hasAllKeys" ∧ isArrF value) ∨
       (op = "hasAnyKeys" ∧ isArrF value)) then
    if op = "path" then
      let pj : FValue × FValue :=
        match value with
        | .farr [] => (.fundefined, .fundefined)
        | .farr [a] => (a, .fundefined)
        | .farr (a :: b :: _) => (a, b)
        | v => (v, .fundefined)
      if isUndefined pj.2 then .pobj [("path", .pv pj.1)]
      else .pobj [("path", .pv pj.1), ("equals", .pv pj.2)]
    else if op = "contains" then
      .pobj [("contains", .pv (jsonParsedOrSelf value))]
    else if op = "containedBy" then
      .pobj [("containedBy", .pv (jsonParsedOrSelf value))]
    else if op = "hasKey" then
      .pobj [("path", .parr [.pv value])]
    else
      let keys : List FValue :=
        match value with
        | .farr l => l
        | _ => []
      let conds := keys.map (fun k => PVal.pobj [("path", .parr [.pv k])])
      if op = "hasAllKeys" then .pobj [("AND", .parr conds)]
      else .pobj [("OR", .parr conds)]
  else if dataType = .enum then
    if op = "not" then .pobj [("not", .pv value)]
    else if op = "in" ∧ isArrF value then
      .pobj [("in", .pv value)]
    else if op = "notIn" ∧ isArrF value then
      .pobj [("notIn", .pv value)]
    else .pobj [("equals", .pv value)]
  else
    .pobj [(op, .pv value)]

/-- Model of convertValueToType (source lines 1530-1610).  In the date case
an unparsable input makes the source substitute the current clock time; a
pure model cannot produce a clock reading, so an Invalid Date stands in for
it; no claim reaches that branch. -/
def convertValueToType (value : FValue) (dataType : DataType) (schema : Option QSchema) :
    FValue :=
  match dataType with
  | .enum =>
    (match schema with
     | some q =>
       if !q.enumValues.isEmpty then
         let strValue := lowerStr (safeStrF value)
         match q.enumValues.find? (fun v => lowerStr v == strValue) with
         | some matched => .fstr matched
         | none => .fstr (q.enumValues.headD "")
       else .fstr (safeStrF value)
     | none => .fstr (safeStrF value))
  | .string =>
    (match value with
     | .fdate t => .fstr ((stringifyF (.fdate t)).getD "")
     | .farr l => .fstr ((stringifyF (.farr l)).getD "")
     | .fobj l => .fstr ((stringifyF (.fobj l)).getD "")
     | v => .fstr (jsStringOf v))
  | .number =>
    (match jsNumberOf value with
     | .fnan => .fnum 0 0
     | n => n)
  | .boolean =>
    (match value with
     | .fstr s => .fbool (lowerStr s = "true")
     | v => .fbool (jsTruthy v))
  | .date =>
    (match value with
     | .fdate t => .fdate t
     | v =>
       match jsNewDate v with
       | .fdate (some t) => .fdate (some t)
       | _ => .fdate none)
  | .json =>
    (match value with
     | .fstr s => ((parseJson s).map fOfJ).getD (.fobj [])
     | .farr l => .farr l
     | .fobj l => .fobj l
     | .fdate t => .fdate t
     | _ => .fobj [])
  | .array =>
    (match value with
     | .farr l => .farr l
     | .fnull => .farr []
     | .fundefined => .farr []
     | .fstr s =>
       (match parseJson s with
        | some (.jarr l) => .farr (fOfJList l)
        | _ => .farr [.fstr s])
     | v => .farr [v])

/-! ## The filter-translation stages -/

/-- Model of parseProps (source lines 223-252): scalar string directives,
firing when the filter value is present or a truthy term meets a
text-search operator. -/
def parseProps (filters0 : Filters) (querySchema : List SEntry) : Rec :=
  let term := lookupF filters0 "term"
  let filters := filters0.filter (fun p => p.1 ≠ "term")
  querySchema.foldl
    (fun acc q =>
      match q with
      | .sfun _ => acc
      | .sstr s =>
        let ko := splitSchemaStr s
        let key := ko.1
        let op := ko.2
        if hasDotColon s ∨ key = "" then acc
        else if ¬ isUndefined (lookupF filters key) ∨
            (jsTruthy term ∧ isTextSearchOperator op) then
          let value := fNullish (lookupF filters key) term
          recSet acc key (createFilterCondition op value (inferDataType value none))
        else acc)
    []

/-- Append into the OR or AND array nested under a parent key. -/
def pushGroup (p : PVal) (g : String) (x : PVal) : PVal :=
  match p with
  | .pobj l =>
    .pobj (l.map fun kv =>
      if kv.1 == g then
        (kv.1, match kv.2 with
               | .parr a => .parr (a ++ [x])
               | v => v)
      else kv)
  | v => v

/-- Model of parseOneToOne (source lines 264-312): dotted directives build a
nested predicate under the parent key, grouped under OR when driven by a
term and under AND otherwise. -/
def parseOneToOne (filters0 : Filters) (querySchema : List SEntry) : Rec :=
  let term := lookupF filters0 "term"
  let filters := filters0.filter (fun p => p.1 ≠ "term")
  querySchema.foldl
    (fun acc q =>
      match q with
      | .sfun _ => acc
      | .sstr s =>
        if ¬ s.data.contains '.' then acc
        else
          let ko := splitSchemaStr s
          let op := ko.2
          let pr := (splitOnC '.' ko.1.data).map String.mk
          let parent := pr.headD ""
          let relation := (pr.drop 1).headD "undefined"
          if (isUndefined (lookupF filters relation) ∧ ¬ jsTruthy term) ∨
             (jsTruthy term ∧ ¬ isTextSearchOperator op) then acc
          else
            let value := fNullish (lookupF filters relation) term
            let cond := createFilterCondition op value (inferDataType value none)
            let groupKey := if jsTruthy term then "OR" else "AND"
            let current := (recGet acc parent).getD (.pobj [(groupKey, .parr [])])
            recSet acc parent (pushGroup current groupKey (.pobj [(relation, cond)])))
    []

/-- Model of parseOneToMany (source lines 317-359): colon directives wrap
the relation condition in a some predicate under the parent key. -/
def parseOneToMany (filters0 : Filters) (querySchema : List SEntry) : Rec :=
  let term := lookupF filters0 "term"
  let filters := filters0.filter (fun p => p.1 ≠ "term")
  querySchema.foldl
    (fun acc q =>
      match q with
      | .sfun _ => acc
      | .sstr s =>
        if ¬ s.data.contains ':' then acc
        else
          let ko := splitSchemaStr s
          let op := ko.2
          let pr := (splitOnC ':' ko.1.data).map String.mk
          let parent := pr.headD ""
          let relation := (pr.drop 1).headD "undefined"
          if (isUndefined (lookupF filters relation) ∧ ¬ jsTruthy term) ∨
             (jsTruthy term ∧ ¬ isTextSearchOperator op) then acc
          else
            let value := fNullish (lookupF filters relation) term
            let cond := createFilterCondition op value (inferDataType value none)
            recSet acc parent (.pobj [("some", .pobj [(relation, cond)])]))
    []

/-- Model of parseFilterFunction (source lines 364-387): structured entries
whose filter value is present contribute the result of their where callback
when it is truthy, collected under a single AND key. -/
def parseFilterFunction (filters : Filters) (querySchema : List SEntry) : Rec :=
  let clauses := querySchema.foldl
    (fun (acc : List PVal) q =>
      match q with
      | .sstr _ => acc
      | .sfun q =>
        if isUndefined (lookupF filters q.key) then acc
        else
          let value :=
            match q.dataType with
            | some dt => convertValueToType (lookupF filters q.key) dt none
            | none => lookupF filters q.key
          match q.whereFn value filters with
          | some p => if pvalTruthy p then acc ++ [p] else acc
          | none => acc)
    []
  if clauses.isEmpty then [] else [("AND", .parr clauses)]

/-- Model of parseQueryFilter (source lines 174-214): field filters from the
four stages merged by object spread; when a truthy term is present, the
three string stages are re-run with the term as only input, their entries
are wrapped one key per disjunct, enum-typed function entries contribute the
truthy results of their where callbacks, and everything is collected under a
single top-level OR key spread over the field filters. -/
def parseQueryFilter (filters : Filters) (querySchema : List SEntry) : Rec :=
  let term := lookupF filters "term"
  let restFilters := filters.filter (fun p => p.1 ≠ "term")
  let fieldFilters :=
    mergeRecords
      (mergeRecords
        (mergeRecords (parseProps restFilters querySchema)
          (parseOneToOne restFilters querySchema))
        (parseOneToMany restFilters querySchema))
      (parseFilterFunction restFilters querySchema)
  if ¬ jsTruthy term then fieldFilters
  else
    let termOnly : Filters := [("term", term)]
    let stringTermFilters :=
      (mergeRecords
        (mergeRecords (parseProps termOnly querySchema)
          (parseOneToOne termOnly querySchema))
        (parseOneToMany termOnly querySchema)).map
        (fun kv => PVal.pobj [kv])
    let enumFilters := querySchema.filterMap
      (fun q =>
        match q with
        | .sstr _ => none
        | .sfun q =>
          if q.dataType = some .enum then
            match q.whereFn .fundefined termOnly with
            | some p => if pvalTruthy p then some p else none
            | none => none
          else none)
    mergeRecords fieldFilters [("OR", .parr (stringTermFilters ++ enumFilters))]

/-- Model of createEnumFilter (source lines 953-984): the canonical builder
of enum-typed schema entries.  Its where callback returns the matched value
for a term that equals a declared enum value after uppercasing, an in
predicate or a raw equality for direct filtering, and the empty object when
nothing applies. -/
def createEnumFilter (key : String) (enumValues : List String) : QSchema :=
  { key := key
    dataType := some .enum
    enumValues := enumValues
    whereFn := fun value filters =>
      let termHandled : Option PVal :=
        match lookupF filters "term" with
        | .fstr t =>
          if t ≠ "" then
            let searchTerm := upperStr t
            if enumValues.contains searchTerm then
              some (.pobj [(key, .pv (.fstr searchTerm))])
            else none
          else none
        | _ => none
      match termHandled with
      | some p => some p
      | none =>
        if jsTruthy value then
          match value with
          | .fstr v =>
            if enumValues.contains v then
              some (.pobj [(key, .pobj [("in", .parr [.pv (.fstr v)])])])
            else some (.pobj [(key, .pv (.fstr v))])
          | v => some (.pobj [(key, .pv v)])
        else some (.pobj []) }

/-! ## The raw-SQL variant -/

/-- A single-quote character as a string. -/
def sq : String := String.mk [Char.ofNat 39]

/-- The escapeSql helper: double every single quote. -/
def escapeSql (s : String) : String :=
  String.mk (s.data.flatMap (fun c => if c = Char.ofNat 39 then [c, c] else [c]))

/-- Quote a string into a SQL literal after escaping. -/
def sqlQ (s : String) : String := sq ++ escapeSql s ++ sq

/-- Model of inferArrayType (source lines 1435-1447): PostgreSQL array
element type from the first non-null element. -/
def inferArrayType (items : List FValue) : String :=
  if items.isEmpty then "text"
  else
    match items.find? (fun v => match v with | .fnull => false | _ => true) with
    | none => "text"
    | some v =>
      match v with
      | .fnum _ _ => "numeric"
      | .fnan => "numeric"
      | .fbool _ => "boolean"
      | .fdate _ => "timestamp"
      | .farr _ => "jsonb"
      | .fobj _ => "jsonb"
      | _ => "text"

/-- Escape double quotes as in the replace of formatArrayForSql. -/
def escDq (s : String) : String :=
  String.mk (s.data.flatMap (fun c => if c = '"' then ['\\', c] else [c]))

/-- Rendering of one array element inside an ARRAY[...] literal, as in
formatArrayForSql. -/
def sqlArrayItem (item : FValue) : String :=
  match item with
  | .fstr s => "\"" ++ escDq s ++ "\""
  | .fnum m e => numToString m e
  | .fnan => "NaN"
  | .fbool b => if b then "true" else "false"
  | .fnull => "NULL"
  | .fdate t => "\"" ++ escDq ((stringifyF (.fdate t)).getD "undefined") ++ "\""
  | .farr l => "\"" ++ escDq ((stringifyF (.farr l)).getD "undefined") ++ "\""
  | .fobj l => "\"" ++ escDq ((stringifyF (.fobj l)).getD "undefined") ++ "\""
  | .fundefined => "undefined"

/-- Model of formatArrayForSql (source lines 1397-1430). -/
def formatArrayForSql (key : String) (items : List FValue) (op : String) : String :=
  if items.isEmpty then
    key ++ " " ++ op ++ " " ++ sq ++ String.mk [lbr, rbr] ++ sq ++ "::" ++
      inferArrayType items ++ "[]"
  else
    let arrayType := inferArrayType items
    let formatted := joinSep "," (items.map sqlArrayItem)
    key ++ " " ++ op ++ " ARRAY[" ++ formatted ++ "]::" ++ arrayType ++ "[]"

/-- The safeStr helper local to the enum case of createRawSqlCondition:
JSON.stringify for objects, String() otherwise (so null renders as the word
null, unlike the safeStr of the type inferencer). -/
def enumSafeStr (v : FValue) : String :=
  match v with
  | .fdate t => (stringifyF (.fdate t)).getD "undefined"
  | .farr l => (stringifyF (.farr l)).getD "undefined"
  | .fobj l => (stringifyF (.fobj l)).getD "undefined"
  | v => jsStringOf v

/-- Rendering of a numeric operand in raw SQL. -/
def sqlNum (v : FValue) : String :=
  match v with
  | .fnum m e => numToString m e
  | _ => "NaN"

/-- Model of createRawSqlCondition (source lines 1178-1392): a raw SQL
boolean fragment, or none where the source returns null (unhandled
operator/type combinations, non-numeric numeric operands, invalid dates). -/
def createRawSqlCondition (key op : String) (value : FValue) (dataType : DataType) :
    Option String :=
  match dataType with
  | .string =>
    if op = "contains" then some (key ++ " ILIKE " ++ sq ++ "%" ++ escapeSql (jsStringOf value) ++ "%" ++ sq)
    else if op = "startsWith" then some (key ++ " ILIKE " ++ sq ++ escapeSql (jsStringOf value) ++ "%" ++ sq)
    else if op = "endsWith" then some (key ++ " ILIKE " ++ sq ++ "%" ++ escapeSql (jsStringOf value) ++ sq)
    else if op = "equals" then some (key ++ " = " ++ sqlQ (jsStringOf value))
    else if op = "not" then some (key ++ " != " ++ sqlQ (jsStringOf value))
    else none
  | .number =>
    (match jsNumberOf value with
     | .fnan => none
     | numValue =>
       if op = "gt" then some (key ++ " > " ++ sqlNum numValue)
       else if op = "lt" then some (key ++ " < " ++ sqlNum numValue)
       else if op = "gte" then some (key ++ " >= " ++ sqlNum numValue)
       else if op = "lte" then some (key ++ " <= " ++ sqlNum numValue)
       else if op = "equals" then some (key ++ " = " ++ sqlNum numValue)
       else if op = "not" then some (key ++ " != " ++ sqlNum numValue)
       else
         match value, op with
         | .farr l, "in" =>
           some (key ++ " IN (" ++ joinSep ", " (l.map (fun v => sqlNum (jsNumberOf v))) ++ ")")
         | .farr l, "notIn" =>
           some (key ++ " NOT IN (" ++ joinSep ", " (l.map (fun v => sqlNum (jsNumberOf v))) ++ ")")
         | _, _ => none)
  | .boolean =>
    let boolValue : Bool :=
      match value with
      | .fbool true => true
      | .fstr s => s = "true"
      | _ => false
    some (key ++ " = " ++ (if boolValue then "true" else "false"))
  | .date =>
    (match (match value with | .fdate t => FValue.fdate t | v => jsNewDate v) with
     | .fdate (some t) =>
       let iso := isoStringOfMs t
       if op = "equals" then some (key ++ "::date = " ++ sq ++ iso ++ sq ++ "::date")
       else if op = "not" then some (key ++ "::date != " ++ sq ++ iso ++ sq ++ "::date")
       else if op = "gt" then some (key ++ "::date > " ++ sq ++ iso ++ sq ++ "::date")
       else if op = "lt" then some (key ++ "::date < " ++ sq ++ iso ++ sq ++ "::date")
       else if op = "gte" then some (key ++ "::date >= " ++ sq ++ iso ++ sq ++ "::date")
       else if op = "lte" then some (key ++ "::date <= " ++ sq ++ iso ++ sq ++ "::date")
       else none
     | _ => none)
  | .json =>
    if op = "path" then
      match value with
      | .farr [] => none
      | .farr (v0 :: tailVals) =>
        let pj : FValue × FValue :=
          match tailVals with
          | [v1] => (v0, v1)
          | _ => (v0, .fundefined)
        let pathParts := (splitOnC '.' (jsStringOf pj.1).data).map String.mk
        if isUndefined pj.2 then
          let expr := joinSep "->" (pathParts.map sqlQ)
          some (key ++ "->" ++ expr ++ " IS NOT NULL")
        else
          let jsonValueSql : String :=
            match pj.2 with
            | .fstr s => sqlQ s
            | .fnum m e => numToString m e
            | .fnan => "NaN"
            | .fbool b => if b then "true" else "false"
            | .fnull => "null"
            | v => sqlQ ((stringifyF v).getD "undefined")
          match pathParts with
          | [p0] => some (key ++ "->>" ++ sqlQ p0 ++ " = " ++ jsonValueSql)
          | _ =>
            let lastPart := pathParts.getLastD ""
            let remaining := joinSep "->" ((pathParts.dropLast).map sqlQ)
            some (key ++ "->" ++ remaining ++ "->>" ++ sqlQ lastPart ++ " = " ++ jsonValueSql)
      | _ => none
    else if op = "contains" then
      let jsonStr := match value with
        | .fstr s => s
        | v => (stringifyF v).getD "undefined"
      some (key ++ " @> " ++ sqlQ jsonStr ++ "::jsonb")
    else if op = "containedBy" then
      let jsonStr := match value with
        | .fstr s => s
        | v => (stringifyF v).getD "undefined"
      some (key ++ " <@ " ++ sqlQ jsonStr ++ "::jsonb")
    else if op = "hasKey" then
      some (key ++ " ? " ++ sqlQ (jsStringOf value))
    else if op = "hasAllKeys" then
      match value with
      | .farr l => some (joinSep " AND " (l.map (fun k => key ++ " ? " ++ sqlQ (jsStringOf k))))
      | _ => none
    else if op = "hasAnyKeys" then
      match value with
      | .farr l => some (joinSep " OR " (l.map (fun k => key ++ " ? " ++ sqlQ (jsStringOf k))))
      | _ => none
    else none
  | .array =>
    let arrayItems : List FValue :=
      match value with
      | .farr l => l
      | v => [v]
    if op = "array_contains" ∨ op = "has" then some (formatArrayForSql key arrayItems "@>")
    else if op = "overlap" then some (formatArrayForSql key arrayItems "&&")
    else if op = "hasSome" then some (formatArrayForSql key arrayItems "&&")
    else if op = "hasEvery" then some (formatArrayForSql key arrayItems "<@")
    else if op = "isEmpty" then some ("array_length(" ++ key ++ ", 1) IS NULL")
    else if op = "isNotEmpty" then some ("array_length(" ++ key ++ ", 1) IS NOT NULL")
    else if op = "equals" then some (formatArrayForSql key arrayItems "=")
    else none
  | .enum =>
    if op = "equals" then some (key ++ "::text = " ++ sqlQ (enumSafeStr value))
    else if op = "not" then some (key ++ "::text != " ++ sqlQ (enumSafeStr value))
    else if op = "in" then
      match value with
      | .farr l => some (key ++ "::text IN (" ++ joinSep ", " (l.map (fun v => sqlQ (enumSafeStr v))) ++ ")")
      | _ => none
    else if op = "notIn" then
      match value with
      | .farr l => some (key ++ "::text NOT IN (" ++ joinSep ", " (l.map (fun v => sqlQ (enumSafeStr v))) ++ ")")
      | _ => none
    else none

/-- Model of parseRawProps (source lines 425-455): raw clauses for scalar
string directives, keeping only truthy (non-empty) fragments. -/
def parseRawProps (filters0 : Filters) (querySchema : List SEntry) : List String :=
  let term := lookupF filters0 "term"
  let filters := filters0.filter (fun p => p.1 ≠ "term")
  querySchema.foldl
    (fun clauses q =>
      match q with
      | .sfun _ => clauses
      | .sstr s =>
        if hasDotColon s then clauses
        else
          let ko := splitSchemaStr s
          let key := ko.1
          let op := ko.2
          if ¬ isUndefined (lookupF filters key) ∨
              (jsTruthy term ∧ isTextSearchOperator op) then
            let value := fNullish (lookupF filters key) term
            match createRawSqlCondition key op value (inferDataType value none) with
            | some c => if c ≠ "" then clauses ++ [c] else clauses
            | none => clauses
          else clauses)
    []

/-- Model of parseRawFilterFunction (source lines 457-477): structured
entries contribute their where result when it is a truthy string. -/
def parseRawFilterFunction (filters : Filters) (querySchema : List SEntry) : List String :=
  querySchema.foldl
    (fun clauses q =>
      match q with
      | .sstr _ => clauses
      | .sfun q =>
        if isUndefined (lookupF filters q.key) then clauses
        else
          let value :=
            match q.dataType with
            | some dt => convertValueToType (lookupF filters q.key) dt none
            | none => lookupF filters q.key
          match q.whereFn value filters with
          | some (.pv (.fstr s)) => if s ≠ "" then clauses ++ [s] else clauses
          | _ => clauses)
    []

/-- Model of parseRawQueryFilter (source lines 396-420): base clauses and a
parenthesized OR of term clauses, all joined with AND. -/
def parseRawQueryFilter (filters : Filters) (querySchema : List SEntry) : String :=
  let term := lookupF filters "term"
  let restFilters := filters.filter (fun p => p.1 ≠ "term")
  let baseClauses :=
    parseRawProps restFilters querySchema ++ parseRawFilterFunction restFilters querySchema
  let termClause :=
    if jsTruthy term then
      let termClauses := parseRawProps [("term", term)] querySchema
      if ¬ termClauses.isEmpty then
        "(" ++ joinSep " OR " termClauses ++ ")"
      else ""
    else ""
  let allClauses := (baseClauses ++ [termClause]).filter (fun c => c ≠ "")
  if ¬ allClauses.isEmpty then joinSep " AND " allClauses else ""

/-! ## Rows and the queryable-collection model -/

/-- A database row with the fields the pagination claims exercise. -/
structure Row where
  id : String
  title : String
  createdAt : String
deriving DecidableEq, Repr

/-- Field access by name; none models a field the row does not carry. -/
def Row.get? (r : Row) (field : String) : Option String :=
  if field = "id" then some r.id
  else if field = "title" then some r.title
  else if field = "createdAt" then some r.createdAt
  else none

/-- Sort directions. -/
inductive Dir where
  | asc
  | desc
deriving DecidableEq, Repr

/-- A resolved orderBy: sort keys in significance order (a single-key object
and a one-element array are the same thing here, which matches how the
source appends the tie-break key to either shape). -/
abbrev OrderBy := List (String × Dir)

/-- Comparison of optional field values; rows in the claims always carry
their sort fields. -/
def cmpOptStr : Option String → Option String → Ordering
  | none, none => .eq
  | none, some _ => .lt
  | some _, none => .gt
  | some a, some b => compare a b

/-- Multi-key row comparison in the data layer's sort. -/
def compareRows : OrderBy → Row → Row → Ordering
  | [], _, _ => .eq
  | (f, d) :: keys, a, b =>
    let c0 := cmpOptStr (a.get? f) (b.get? f)
    let c : Ordering :=
      match d with
      | .asc => c0
      | .desc =>
        match c0 with
        | .lt => .gt
        | .gt => .lt
        | .eq => .eq
    match c with
    | .eq => compareRows keys a b
    | .lt => .lt
    | .gt => .gt

/-- Stable insertion into a sorted list: the new element goes before the
first element it does not come strictly after. -/
def insertSorted (le : Row → Row → Bool) (x : Row) : List Row → List Row
  | [] => [x]
  | y :: ys => if le x y then x :: y :: ys else y :: insertSorted le x ys

/-- Stable sort by repeated insertion. -/
def sortRowsBy (le : Row → Row → Bool) (l : List Row) : List Row :=
  l.foldr (insertSorted le) []

/-- The data layer's sort under a resolved orderBy. -/
def sortRows (keys : OrderBy) (l : List Row) : List Row :=
  sortRowsBy (fun a b => match compareRows keys a b with | .gt => false | _ => true) l

/-- The take argument of a find-many call: absent, the NaN a malformed
cursor produces (the real data layer rejects such a query; no claim reaches
it), or a signed row count whose sign selects the scan direction. -/
inductive TakeVal where
  | unset
  | nan
  | tval (n : Int)
deriving DecidableEq, Repr

/-- The arguments of a delegate findMany call. -/
structure FetchArgs where
  whereQ : Row → Bool
  orderBy : OrderBy
  skip : Nat
  take : TakeVal
  cursor : Option String

/-- Last n elements of a list. -/
def lastN (n : Nat) (l : List Row) : List Row :=
  l.drop (l.length - n)

/-- The delegate findMany over an in-memory collection, following the ORM's
cursor semantics: rows are filtered and sorted, the cursor positions the
window at the row with the given id (an unmatched cursor yields no rows),
skip moves the window away from the cursor row, a nonnegative take reads
forward from the position and a negative take reads the rows immediately
before it, always returned in sort order. -/
def dbFindMany (db : List Row) (a : FetchArgs) : List Row :=
  let sorted := sortRows a.orderBy (db.filter a.whereQ)
  match a.cursor with
  | none =>
    (match a.take with
     | .unset => sorted.drop a.skip
     | .nan => []
     | .tval t =>
       if 0 ≤ t then (sorted.drop a.skip).take t.toNat
       else lastN t.natAbs (sorted.take (sorted.length - a.skip)))
  | some cid =>
    (match sorted.findIdx? (fun r => r.id == cid) with
     | none => []
     | some pos =>
       match a.take with
       | .unset => sorted.drop (pos + a.skip)
       | .nan => []
       | .tval t =>
         if 0 ≤ t then (sorted.drop (pos + a.skip)).take t.toNat
         else
           let upto := sorted.take (pos + 1 - a.skip)
           upto.drop (upto.length - t.natAbs))

/-! ## Cursor decoding -/

/-- The decoded cursor shape: boundary row id, scan direction and the
irregular-last-page marker.  The JSON fields are optional at runtime; a
non-string id or a non-integral dir is outside the modelled domain (the
source would forward such junk to the data layer, which rejects the query),
and the last field carries plain JavaScript truthiness. -/
structure DecodedCursor where
  id : Option String
  dir : Option Int
  last : Bool
deriving DecidableEq, Repr

/-- The empty object the source starts from. -/
def emptyDecodedCursor : DecodedCursor :=
  { id := none, dir := none, last := false }

/-- Last-occurrence field read, as JSON.parse resolves duplicate keys. -/
def jget (l : List (String × JVal)) (k : String) : Option JVal :=
  (l.reverse.find? (fun p => p.1 == k)).map (fun p => p.2)

/-- Read the decoded-cursor fields out of a parsed JSON value. -/
def cursorOfJVal : JVal → DecodedCursor
  | .jobj l =>
    { id := match jget l "id" with
            | some (.jstr s) => some s
            | _ => none
      dir := match jget l "dir" with
             | some (.jnum m e) => decToIntExact m e
             | _ => none
      last := match jget l "last" with
              | some v => jvalTruthy v
              | none => false }
  | _ => emptyDecodedCursor

/-- Modelled from the spec: AppUtilities.encode, the Cursor Codec of spec
section 6 — a reversible, non-cryptographic token codec consumed by the
pagination engine; its implementation file is not among the provided
sources.  The identity function is the canonical reversible codec, and the
claims rely only on decode being the left inverse of encode. -/
def cursorEncode (s : String) : String := s

/-- Modelled from the spec: AppUtilities.decode, the inverse half of the
Cursor Codec of spec section 6. -/
def cursorDecode (s : String) : String := s

/-- Decode and parse a cursor token; none models the JSON.parse throw the
source turns into a NotAcceptableException. -/
def decodeCursorToken (tok : String) : Option DecodedCursor :=
  (parseJson (cursorDecode tok)).map cursorOfJVal

/-- JavaScript truthiness of the decoded id. -/
def idTruthy (dc : DecodedCursor) : Bool :=
  match dc.id with
  | some s => s ≠ ""
  | none => false

/-! ## Pagination results -/

/-- The client errors the engine can raise; NotAcceptable and NotFound are
distinct constructors as they are distinct HTTP exception classes. -/
inductive PagError where
  | notAcceptable (msg : String)
  | notFound (msg : String)
deriving DecidableEq, Repr

/-- Page-based metadata. -/
structure PageMeta where
  itemCount : Nat
  totalItems : Nat
  itemsPerPage : Nat
  totalPages : Nat
  currentPage : Nat
deriving DecidableEq, Repr

/-- Cursor links: none models the false a JavaScript short-circuit leaves in
a link slot, and the Boolean flags carry the truthiness of the source's
hasNext and hasPrevious expressions. -/
structure PageCursors where
  first : Option String
  previous : Option String
  next : Option String
  last : Option String
  hasNext : Bool
  hasPrevious : Bool
deriving DecidableEq, Repr

/-- A paginated result: each shape of the source's return objects uses just
its own fields, the others stay none. -/
structure PagResult where
  pageItems : Option (List Row) := none
  pageEdges : Option (List Row) := none
  pageMeta : Option PageMeta := none
  pageCursors : Option PageCursors := none
  totalCount : Option Nat := none
deriving DecidableEq, Repr

/-- The isPaginated switch: the wire can carry a boolean or a string. -/
inductive StrBool where
  | sb (b : Bool)
  | ss (s : String)
deriving DecidableEq, Repr

/-- The toString() used by the findManyPaginate switch. -/
def strBoolToStr : StrBool → String
  | .sb true => "true"
  | .sb false => "false"
  | .ss s => s

/-- Plain JavaScript falsiness of the switch (the paginateMultipleResult
test), under which the string false is truthy. -/
def jsFalsySB : StrBool → Bool
  | .sb b => !b
  | .ss s => s = ""

/-- A requested orderBy: a field-name string or a structured sort object. -/
inductive OrderBySpec where
  | ostr (s : String)
  | oobj (l : OrderBy)
deriving DecidableEq, Repr

/-- The pagination parameters, with the findManyPaginate destructuring
defaults (Number() coercions on size and page collapse in the Nat model;
paginateMultipleResult defaults isPaginated to the boolean true instead of
the string, which no switch can distinguish). -/
structure Params where
  size : Nat := 25
  cursor : Option String := none
  paginationType : String := "page"
  page : Nat := 1
  direction : Dir := .desc
  isPaginated : StrBool := .ss "true"
  orderBy : Option OrderBySpec := none

/-- The caller's query arguments; the engine overwrites orderBy, skip, take
and cursor on every path, so only the where predicate flows through. -/
structure QueryArgs where
  whereQ : Row → Bool

/-- The orderBy sanitizer: strip every character that is not alphanumeric
or an underscore. -/
def sanitizeOrderBy (s : String) : String :=
  String.mk (s.data.filter (fun c => c.isAlphanum || c = '_'))

/-- Resolution of the requested orderBy (source lines 505-514): a string
request is sanitized into a single-key sort, an empty sanitization falls
back to createdAt, and an object request passes through unchanged. -/
def resolveOrderBy (req : OrderBySpec) (direction : Dir) : OrderBy :=
  match req with
  | .ostr s =>
    let s2 := sanitizeOrderBy s
    if s2 ≠ "" then [(s2, direction)] else [("createdAt", direction)]
  | .oobj l => l

/-- Model of getTotalCount (source lines 552-563): the dedicated count query
over the same where clause. -/
def getTotalCount (db : List Row) (whereQ : Row → Bool) : Nat :=
  (db.filter whereQ).length

/-- Math.ceil of a natural division (the divisor is always positive on the
reachable paths: the page-based take falls back to 25 when size is 0). -/
def jsCeilDiv (a b : Nat) : Nat := (a + b - 1) / b

/-- Options handed to the page-based handler. -/
structure PageOpts where
  size : Nat
  page : Nat
  orderBy : OrderBy
  totalCount : Nat

/-- The fetch arguments the page-based handler issues: skip is the
offset (page - 1) * take with take = size falling back to the default 25
when size is 0.  Nat subtraction models the source's page - 1; a page of 0
would produce a negative offset the data layer rejects, and the claims
assume a page of at least 1. -/
def pageFetchArgs (args : QueryArgs) (o : PageOpts) : FetchArgs :=
  let take := if o.size = 0 then 25 else o.size
  { whereQ := args.whereQ
    orderBy := o.orderBy
    skip := (o.page - 1) * take
    take := .tval (take : Int)
    cursor := none }

/-- Model of handlePageBasedPagination (source lines 574-603). -/
def handlePageBasedPagination (db : List Row) (args : QueryArgs) (o : PageOpts) :
    PagResult :=
  let take := if o.size = 0 then 25 else o.size
  let results := dbFindMany db (pageFetchArgs args o)
  { pageItems := some results
    pageMeta := some
      { itemCount := results.length
        totalItems := o.totalCount
        itemsPerPage := take
        totalPages := jsCeilDiv o.totalCount take
        currentPage := o.page } }

/-- Options handed to the cursor handler. -/
structure CursorOpts where
  size : Nat
  cursor : Option String
  direction : Dir
  orderBy : OrderBy
  totalCount : Nat

/-- The magnitude of the cursor take, from the source expression
((decodedCursor.last && totalCount % size) || size + 1): a truthy last with
a nonzero remainder selects the remainder, anything else (a falsy last, a
zero remainder, or the NaN remainder a size of 0 produces) falls back to
size + 1. -/
def takeMag (last : Bool) (totalCount size : Nat) : Nat :=
  if last ∧ size ≠ 0 ∧ totalCount % size ≠ 0 then totalCount % size else size + 1

/-- The fetch plan of handleCursorPagination (source lines 626-660): cursor
decoding, the skip/take/cursor arguments, and the tie-break key appended to
the resolved ordering (the source appends it after the branch; it is folded
into both branches here with the same result).  A token JSON.parse rejects
becomes the NotAcceptable error before any fetch. -/
def cursorFetchPlan (args : QueryArgs) (o : CursorOpts) :
    Except PagError (FetchArgs × DecodedCursor) :=
  match o.cursor with
  | some tok =>
    (match decodeCursorToken tok with
     | none => .error (.notAcceptable "Invalid cursor format")
     | some dc =>
       .ok
         ({ whereQ := args.whereQ
            orderBy := o.orderBy ++ [("id", o.direction)]
            skip := if idTruthy dc then 1 else 0
            take :=
              match dc.dir with
              | some d => .tval ((takeMag dc.last o.totalCount o.size : Int) * d)
              | none => .nan
            cursor := if idTruthy dc then dc.id else none }, dc))
  | none =>
    .ok
      ({ whereQ := args.whereQ
         orderBy := o.orderBy ++ [("id", o.direction)]
         skip := 0
         take := .tval ((o.size : Int) + 1)
         cursor := none }, emptyDecodedCursor)

/-- Options handed to the link generator. -/
structure LinkOpts where
  size : Nat
  decodedCursor : DecodedCursor
  totalCount : Nat

/-- JSON.stringify of a cursor link payload; an undefined id (an empty page
edge under a size of 0, unreachable in the claims) is dropped the way
JSON.stringify drops undefined properties. -/
def stringifyCursor (id : Option String) (dir : Int) : String :=
  (stringifyF (.fobj
    [("id", match id with | some s => .fstr s | none => .fundefined),
     ("dir", .fnum dir 0)])).getD ""

/-- Model of generateCursorLinks (source lines 675-755): the empty-result
shape with every link false, the hasNext/hasPrevious flags (their JavaScript
truthiness; a nullish short-circuit value renders as false), the extra-row
trim from the far end, and the four encoded links. -/
def generateCursorLinks (results : List Row) (o : LinkOpts) : PagResult :=
  if results.isEmpty then
    { pageEdges := some []
      pageCursors := some
        { first := none, previous := none, next := none, last := none
          hasNext := false, hasPrevious := false }
      totalCount := some o.totalCount }
  else
    let dc := o.decodedCursor
    let hasPrevious := dc.dir == some 1 || (idTruthy dc && decide (results.length > o.size))
    let hasNext := dc.dir == some (-1) || decide (results.length > o.size)
    let trimmed :=
      if results.length > o.size then
        (if dc.dir == some 1 || dc.dir == none then results.dropLast else results.tail)
      else results
    let firstId := (trimmed.head?).map Row.id
    let lastId := (trimmed.getLast?).map Row.id
    { pageEdges := some trimmed
      pageCursors := some
        { first := if hasPrevious then some (cursorEncode (stringifyCursor firstId 1)) else none
          previous := if hasPrevious then some (cursorEncode (stringifyCursor firstId (-1))) else none
          next := if hasNext then some (cursorEncode (stringifyCursor lastId 1)) else none
          last := if hasNext then some (cursorEncode (stringifyCursor lastId (-1))) else none
          hasNext := hasNext
          hasPrevious := hasPrevious }
      totalCount := some o.totalCount }

/-- Model of handleCursorPagination (source lines 615-672): plan, fetch,
links. -/
def handleCursorPagination (db : List Row) (args : QueryArgs) (o : CursorOpts) :
    Except PagError PagResult :=
  match cursorFetchPlan args o with
  | .error e => .error e
  | .ok (fa, dc) =>
    .ok (generateCursorLinks (dbFindMany db fa)
      { size := o.size, decodedCursor := dc, totalCount := o.totalCount })

/-- Model of findManyPaginate (source lines 488-550), without the optional
dataMapper (every claim takes the identity mapping path): resolve the
ordering, serve the disabled-pagination branch before any count query, then
dispatch on the pagination type with the dedicated total count. -/
def findManyPaginate (db : List Row) (args : QueryArgs) (params : Params) :
    Except PagError PagResult :=
  let requestedOrderBy := params.orderBy.getD (.ostr "createdAt")
  let orderBy := resolveOrderBy requestedOrderBy params.direction
  if lowerStr (strBoolToStr params.isPaginated) = "false" then
    .ok { pageItems := some (dbFindMany db
      { whereQ := args.whereQ, orderBy := orderBy, skip := 0, take := .unset, cursor := none }) }
  else
    let totalCount := getTotalCount db args.whereQ
    if params.paginationType = "page" then
      .ok (handlePageBasedPagination db args
        { size := params.size, page := params.page, orderBy := orderBy, totalCount := totalCount })
    else
      handleCursorPagination db args
        { size := params.size, cursor := params.cursor, direction := params.direction
          orderBy := orderBy, totalCount := totalCount }

/-! ## The result merger -/

/-- Model of sortByOrder (source lines 993-1014): the in-memory multi-key
comparator, nulls ordered by direction, ties falling through to the next
key. -/
def sortByOrder (orderBy : OrderBy) (a b : Row) : Int :=
  match orderBy with
  | [] => 0
  | (key, d) :: keys =>
    (match a.get? key, b.get? key with
     | none, some _ => if d = .asc then -1 else 1
     | some _, none => if d = .asc then 1 else -1
     | none, none => sortByOrder keys a b
     | some x, some y =>
       if x < y then (if d = .asc then -1 else 1)
       else if y < x then (if d = .asc then 1 else -1)
       else sortByOrder keys a b)

/-- Model of paginateMultipleResult (source lines 758-824): flatten, sort
when an orderBy is given (a string orderBy is not sanitized here), serve
everything when the switch is JavaScript-falsy (so the string false keeps
pagination on), else slice with the page-based offset.  The Nat model of
page - 1 and of Math.ceil at a size of 0 matches the source on the
parameter ranges the claims use (page at least 1, size at least 1). -/
def paginateMultipleResult (dataArrays : List (List Row)) (params : Params) : PagResult :=
  let orderBy : Option OrderBy :=
    match params.orderBy with
    | some (.ostr s) => some [(s, params.direction)]
    | some (.oobj l) => some l
    | none => none
  let merged := dataArrays.flatten
  let merged :=
    match orderBy with
    | some ob => sortRowsBy (fun a b => sortByOrder ob a b ≤ 0) merged
    | none => merged
  if jsFalsySB params.isPaginated then
    { pageItems := some merged
      pageMeta := some
        { itemCount := merged.length
          totalItems := merged.length
          itemsPerPage := merged.length
          totalPages := 1
          currentPage := 1 } }
  else
    let take := params.size
    let offset := (params.page - 1) * take
    let sliced := (merged.drop offset).take take
    { pageItems := some sliced
      pageMeta := some
        { itemCount := sliced.length
          totalItems := merged.length
          itemsPerPage := take
          totalPages := jsCeilDiv merged.length take
          currentPage := params.page } }

/-! ## Result projections and scenario fixtures -/

/-- Successful result of a pagination call. -/
def okResult : Except PagError PagResult → Option PagResult
  | .ok r => some r
  | .error _ => none

/-- The pageEdges of a successful result. -/
def edgesOf (r : Except PagError PagResult) : Option (List Row) :=
  (okResult r).bind (fun v => v.pageEdges)

/-- The pageCursors of a successful result. -/
def cursorsOf (r : Except PagError PagResult) : Option PageCursors :=
  (okResult r).bind (fun v => v.pageCursors)

/-- The next link of a successful result. -/
def nextTokenOf (r : Except PagError PagResult) : Option String :=
  (cursorsOf r).bind (fun c => c.next)

/-- The hasNext flag of a successful result. -/
def hasNextOf (r : Except PagError PagResult) : Bool :=
  ((cursorsOf r).map (fun c => c.hasNext)).getD false

/-- The pageItems of a successful result. -/
def itemsOf (r : Except PagError PagResult) : Option (List Row) :=
  (okResult r).bind (fun v => v.pageItems)

/-- The pageMeta of a successful result. -/
def metaOf (r : Except PagError PagResult) : Option PageMeta :=
  (okResult r).bind (fun v => v.pageMeta)

/-- The totalCount of a successful result. -/
def totalCountOf (r : Except PagError PagResult) : Option Nat :=
  (okResult r).bind (fun v => v.totalCount)

/-- Three rows with the same title and increasing ids, the tie-break
scenario of the spec. -/
def rowA : Row := { id := "a", title := "Grace", createdAt := "t1" }

def rowB : Row := { id := "b", title := "Grace", createdAt := "t2" }

def rowC : Row := { id := "c", title := "Grace", createdAt := "t3" }

/-- The seeded collection, deliberately out of order. -/
def dbGrace : List Row := [rowC, rowA, rowB]

/-- A pass-everything where clause. -/
def argsAll : QueryArgs := { whereQ := fun _ => true }

/-- Cursor pagination forward by title with page size 2. -/
def paramsGrace : Params :=
  { size := 2, paginationType := "cursor", direction := .asc
    orderBy := some (.oobj [("title", .asc)]) }

/-- Ten rows for the page-math scenario. -/
def db10 : List Row :=
  (List.range 10).map fun i =>
    { id := toString i, title := "h", createdAt := "t" ++ toString i }

/-! ## Sorting permutation lemmas -/

theorem insertSorted_perm (le : Row → Row → Bool) (x : Row) (l : List Row) :
    (insertSorted le x l).Perm (x :: l) := by
  induction l with
  | nil => simp [insertSorted]
  | cons y ys ih =>
    simp only [insertSorted]
    split
    · exact List.Perm.refl _
    · exact (ih.cons y).trans (List.Perm.swap x y ys)

theorem sortRowsBy_perm (le : Row → Row → Bool) (l : List Row) :
    (sortRowsBy le l).Perm l := by
  induction l with
  | nil => simp [sortRowsBy]
  | cons x xs ih =>
    have h : sortRowsBy le (x :: xs) = insertSorted le x (sortRowsBy le xs) := rfl
    rw [h]
    exact (insertSorted_perm le x (sortRowsBy le xs)).trans (ih.cons x)

theorem mem_sortRows (r : Row) (keys : OrderBy) (l : List Row) :
    r ∈ sortRows keys l ↔ r ∈ l :=
  (sortRowsBy_perm _ l).mem_iff

/-! ## Claims -/

/-- C1: in cursor-based pagination, a cursor token decoding to an object
with a truthy id, an integral dir of plus or minus one and a last flag makes
the data fetch use cursor beside the decoded id, skip 1, and a take of
(size + 1) * dir, except that a set last flag with a nonzero
totalCount % size takes (totalCount % size) * dir rows instead; with no
cursor supplied the fetch takes size + 1 rows from the start in the
requested order (the resolved ordering with the id tie-break appended). -/
theorem C1_cursor_fetch_take :
    (∀ (args : QueryArgs) (o : CursorOpts) (tok : String) (dc : DecodedCursor)
        (idv : String) (d : Int),
      o.cursor = some tok →
      decodeCursorToken tok = some dc →
      dc.id = some idv → idv ≠ "" → dc.dir = some d → 0 < o.size →
      cursorFetchPlan args o = .ok
        ({ whereQ := args.whereQ
           orderBy := o.orderBy ++ [("id", o.direction)]
           skip := 1
           take := .tval
             (((if dc.last ∧ o.totalCount % o.size ≠ 0
                then o.totalCount % o.size else o.size + 1 : Nat) : Int) * d)
           cursor := some idv }, dc)) ∧
    (∀ (args : QueryArgs) (o : CursorOpts),
      o.cursor = none →
      cursorFetchPlan args o = .ok
        ({ whereQ := args.whereQ
           orderBy := o.orderBy ++ [("id", o.direction)]
           skip := 0
           take := .tval ((o.size : Int) + 1)
           cursor := none }, emptyDecodedCursor)) := by
  constructor
  · intro args o tok dc idv d hc hdec hid hidne hdir hsz
    have hsz0 : o.size ≠ 0 := Nat.pos_iff_ne_zero.mp hsz
    simp only [cursorFetchPlan, hc, hdec, hdir, takeMag, idTruthy, hid, hidne,
      ne_eq, not_false_eq_true, if_true, hsz0, true_and, Except.ok.injEq,
      Prod.mk.injEq, and_true]
    rfl
  · intro args o hc
    simp only [cursorFetchPlan, hc]

/-- C1 witness: the cursor branch at a concrete token, size and count. -/
theorem C1_cursor_fetch_take_witness :
    cursorFetchPlan argsAll
      { size := 2, cursor := some (stringifyCursor (some "x") 1)
        direction := .asc, orderBy := [("title", .asc)], totalCount := 5 } = .ok
      ({ whereQ := argsAll.whereQ
         orderBy := [("title", .asc), ("id", .asc)]
         skip := 1
         take := .tval 3
         cursor := some "x" }, { id := some "x", dir := some 1, last := false }) :=
  C1_cursor_fetch_take.1 argsAll
    { size := 2, cursor := some (stringifyCursor (some "x") 1)
      direction := .asc, orderBy := [("title", .asc)], totalCount := 5 }
    (stringifyCursor (some "x") 1) { id := some "x", dir := some 1, last := false }
    "x" 1 rfl (by decide) rfl (by decide) rfl (by decide)

/-- C7: a cursor token JSON.parse rejects makes the whole call fail with the
NotAcceptable client error, for every database content alike (so no data
fetch can influence the outcome and there is no silent fallback to default
pagination), and NotAcceptable is distinct from NotFound. -/
theorem C7_invalid_cursor :
    (∀ (db : List Row) (args : QueryArgs) (params : Params) (tok : String),
      params.cursor = some tok →
      parseJson (cursorDecode tok) = none →
      lowerStr (strBoolToStr params.isPaginated) ≠ "false" →
      params.paginationType ≠ "page" →
      findManyPaginate db args params = .error (.notAcceptable "Invalid cursor format")) ∧
    (∀ m1 m2 : String, PagError.notAcceptable m1 ≠ PagError.notFound m2) := by
  constructor
  · intro db args params tok hc hparse hpag htype
    simp only [findManyPaginate, hpag, if_false, htype, handleCursorPagination,
      cursorFetchPlan, hc, decodeCursorToken, hparse]
    rfl
  · intro m1 m2 h
    cases h

/-- C7 witness: a concrete garbage token on a concrete database. -/
theorem C7_invalid_cursor_witness :
    findManyPaginate dbGrace argsAll { paramsGrace with cursor := some "###" } =
      .error (.notAcceptable "Invalid cursor format") :=
  C7_invalid_cursor.1 dbGrace argsAll { paramsGrace with cursor := some "###" } "###"
    rfl rfl (by decide) (by decide)

/-- C2: every cursor-based fetch plan appends the id tie-break as the final
sort key after the caller's requested ordering; and in the concrete
tie-break scenario (three rows all titled Grace with ids a, b, c under an
ascending title order), a forward size-2 request with no cursor returns
exactly the rows a and b with hasNext true, following the returned next
cursor returns exactly the row c with hasNext false, and the two pages
together hold every seeded row exactly once. -/
theorem C2_tiebreak_stability :
    (∀ (args : QueryArgs) (o : CursorOpts) (fa : FetchArgs) (dc : DecodedCursor),
      cursorFetchPlan args o = .ok (fa, dc) →
      fa.orderBy = o.orderBy ++ [("id", o.direction)]) ∧
    (edgesOf (findManyPaginate dbGrace argsAll paramsGrace) = some [rowA, rowB] ∧
     hasNextOf (findManyPaginate dbGrace argsAll paramsGrace) = true ∧
     (let tok := (nextTokenOf (findManyPaginate dbGrace argsAll paramsGrace)).getD ""
      edgesOf (findManyPaginate dbGrace argsAll { paramsGrace with cursor := some tok }) =
          some [rowC] ∧
      hasNextOf (findManyPaginate dbGrace argsAll { paramsGrace with cursor := some tok }) =
          false) ∧
     ([rowA, rowB] ++ [rowC]).Nodup ∧
     ([rowA, rowB] ++ [rowC]).Perm dbGrace) := by
  constructor
  · intro args o fa dc h
    cases hc : o.cursor with
    | none =>
      simp only [cursorFetchPlan, hc, Except.ok.injEq, Prod.mk.injEq] at h
      rw [← h.1]
    | some tok =>
      simp only [cursorFetchPlan, hc] at h
      cases hdec : decodeCursorToken tok with
      | none => rw [hdec] at h; simp at h
      | some dc2 =>
        rw [hdec] at h
        simp only [Except.ok.injEq, Prod.mk.injEq] at h
        rw [← h.1]
  · exact ⟨by decide, by decide, ⟨by decide, by decide⟩, by decide, by decide⟩

/-- C2 witness: the tie-break append at the concrete no-cursor plan of the
scenario. -/
theorem C2_tiebreak_stability_witness :
    ({ whereQ := argsAll.whereQ
       orderBy := [("title", Dir.asc), ("id", Dir.asc)]
       skip := 0
       take := .tval 3
       cursor := none } : FetchArgs).orderBy =
      [("title", Dir.asc)] ++ [("id", Dir.asc)] :=
  C2_tiebreak_stability.1 argsAll
    { size := 2, cursor := none, direction := .asc
      orderBy := [("title", .asc)], totalCount := 3 }
    { whereQ := argsAll.whereQ
      orderBy := [("title", Dir.asc), ("id", Dir.asc)]
      skip := 0
      take := .tval 3
      cursor := none }
    emptyDecodedCursor rfl

/-- C10: a cursor-based call whose data fetch returns no rows produces the
empty pageEdges with every cursor link false and the flags false, while the
totalCount still carries the count query's value; concretely, a forged
cursor pointing past the Grace data yields the empty page with totalCount
3. -/
theorem C10_empty_fetch_result :
    (∀ o : LinkOpts, generateCursorLinks [] o =
      { pageEdges := some []
        pageCursors := some
          { first := none, previous := none, next := none, last := none
            hasNext := false, hasPrevious := false }
        totalCount := some o.totalCount }) ∧
    (∀ (db : List Row) (args : QueryArgs) (o : CursorOpts) (fa : FetchArgs)
        (dc : DecodedCursor),
      cursorFetchPlan args o = .ok (fa, dc) →
      dbFindMany db fa = [] →
      handleCursorPagination db args o = .ok
        { pageEdges := some []
          pageCursors := some
            { first := none, previous := none, next := none, last := none
              hasNext := false, hasPrevious := false }
          totalCount := some o.totalCount }) ∧
    (edgesOf (findManyPaginate dbGrace argsAll
        { paramsGrace with cursor := some (stringifyCursor (some "zzz") 1) }) = some [] ∧
     cursorsOf (findManyPaginate dbGrace argsAll
        { paramsGrace with cursor := some (stringifyCursor (some "zzz") 1) }) = some
       { first := none, previous := none, next := none, last := none
         hasNext := false, hasPrevious := false } ∧
     totalCountOf (findManyPaginate dbGrace argsAll
        { paramsGrace with cursor := some (stringifyCursor (some "zzz") 1) }) = some 3) := by
  have hempty : ∀ o : LinkOpts, generateCursorLinks [] o =
      { pageEdges := some []
        pageCursors := some
          { first := none, previous := none, next := none, last := none
            hasNext := false, hasPrevious := false }
        totalCount := some o.totalCount } := fun o => rfl
  refine ⟨hempty, ?_, by decide, by decide, by decide⟩
  intro db args o fa dc h1 h2
  unfold handleCursorPagination
  rw [h1]
  show Except.ok (generateCursorLinks (dbFindMany db fa)
      { size := o.size, decodedCursor := dc, totalCount := o.totalCount }) = _
  rw [h2, hempty]

/-- C10 witness: the empty-fetch shape at the forged-cursor plan of the
scenario. -/
theorem C10_empty_fetch_result_witness :
    handleCursorPagination dbGrace argsAll
      { size := 2, cursor := some (stringifyCursor (some "zzz") 1), direction := .asc
        orderBy := [("title", .asc)], totalCount := 3 } = .ok
      { pageEdges := some []
        pageCursors := some
          { first := none, previous := none, next := none, last := none
            hasNext := false, hasPrevious := false }
        totalCount := some 3 } :=
  C10_empty_fetch_result.2.1 dbGrace argsAll
    { size := 2, cursor := some (stringifyCursor (some "zzz") 1), direction := .asc
      orderBy := [("title", .asc)], totalCount := 3 }
    { whereQ := argsAll.whereQ
      orderBy := [("title", .asc), ("id", .asc)]
      skip := 1
      take := .tval 3
      cursor := some "zzz" }
    { id := some "zzz", dir := some 1, last := false }
    rfl (by decide)

/-- The case-insensitive contains condition the term search builds for one
scalar field. -/
def termFieldCond (field t : String) : PVal :=
  .pobj [(field, .pobj [("contains", .pv (.fstr t)), ("mode", .pv (.fstr "insensitive"))])]

/-- Two contains-capable scalar fields. -/
def schemaAB : List SEntry := [.sstr "a|contains", .sstr "b|contains"]

/-- The same two fields plus an enum-typed function entry built by the
service's own createEnumFilter. -/
def schemaABEnum : List SEntry :=
  [.sstr "a|contains", .sstr "b|contains", .sfun (createEnumFilter "status" ["ACTIVE"])]

/-- C3: the term contribution of parseQueryFilter is a single top-level OR
that is AND-combined (object spread) with the non-term clauses, never an
AND of the per-field conditions: for the two contains-capable fields the OR
holds exactly one case-insensitive disjunct per field, and an extra filter
key sits beside the OR at top level.  With an enum-typed function entry in
the schema the OR gains the matched enum value when the uppercased term is
declared — but when the term matches no declared value, the entry's where
callback returns the empty object, which is truthy, survives the
filter(Boolean), and lands in the OR as a match-everything disjunct: the
claim's description of the OR contents (only per-field conditions plus enum
matches) is what the filter(Boolean) and the spec's where contract intend,
and the code deviates from it on that input. -/
theorem C3_term_or_combination :
    (parseQueryFilter [("term", .fstr "x")] schemaAB =
      [("OR", .parr [termFieldCond "a" "x", termFieldCond "b" "x"])]) ∧
    (parseQueryFilter [("term", .fstr "x"), ("b", .fstr "yy")] schemaAB =
      [("b", .pobj [("contains", .pv (.fstr "yy")), ("mode", .pv (.fstr "insensitive"))]),
       ("OR", .parr [termFieldCond "a" "x", termFieldCond "b" "x"])]) ∧
    (parseQueryFilter [("term", .fstr "active")] schemaABEnum =
      [("OR", .parr [termFieldCond "a" "active", termFieldCond "b" "active",
        .pobj [("status", .pv (.fstr "ACTIVE"))]])]) ∧
    (parseQueryFilter [("term", .fstr "x")] schemaABEnum =
      [("OR", .parr [termFieldCond "a" "x", termFieldCond "b" "x", .pobj []])]) :=
  ⟨rfl, rfl, rfl, rfl⟩

/-- C4 counterexample: an operator/type combination the predicate builder
does not support (gt on a string-typed value) still contributes a clause —
the passthrough object with the raw operator and value — so the entry is
not silently omitted from the structured predicate. -/
theorem C4_unsupported_counterexample :
    parseQueryFilter [("age", .fstr "abc")] [.sstr "age|gt"] =
      [("age", .pobj [("gt", .pv (.fstr "abc"))])] ∧
    ([("age", PVal.pobj [("gt", .pv (.fstr "abc"))])] : Rec) ≠ [] :=
  ⟨rfl, by simp⟩

/-- C4 amended: neither builder can throw (both are total functions of
their inputs); the raw-SQL builder contributes no clause for unsupported
operator/type combinations (gt or hasKey on a string type, any value) and
for failed numeric conversions, so the raw translation of such a filter is
the empty fragment; the structured builder instead falls back to the
passthrough clause with the raw operator and value. -/
theorem C4_unsupported_amended :
    (∀ v : FValue, createFilterCondition "gt" v .string = .pobj [("gt", .pv v)]) ∧
    (∀ v : FValue, createFilterCondition "hasKey" v .string = .pobj [("hasKey", .pv v)]) ∧
    (∀ (k : String) (v : FValue), createRawSqlCondition k "gt" v .string = none) ∧
    (∀ (k : String) (v : FValue), createRawSqlCondition k "hasKey" v .string = none) ∧
    (∀ k : String, createRawSqlCondition k "gt" (.fstr "abc") .number = none) ∧
    parseRawQueryFilter [("age", .fstr "abc")] [.sstr "age|gt"] = "" :=
  ⟨fun _ => rfl, fun _ => rfl, fun _ _ => rfl, fun _ _ => rfl, fun _ => rfl, rfl⟩

/-- The object-or-array test on a parsed JSON value (the typeof object and
not null check). -/
def jIsObjArr : JVal → Bool
  | .jobj _ => true
  | .jarr _ => true
  | _ => false

/-- C5: inferDataType classifies by the fixed precedence — an explicit
case-insensitive enum schema match wins over everything; otherwise null and
undefined classify at the null stage (as string), arrays as array, Date
instances as date; a string is tested as a numeric string first (regardless
of any date shape), then as a boolean string, then against JSON.parse
(objects and arrays giving json), then — only when JSON.parse rejects it —
against the ISO-like date shape, and otherwise stays a string.  In
particular the string 123 infers as number (never date or string), the
string true as boolean, and the string 2024-01-01 as date. -/
theorem C5_infer_data_type_precedence :
    (∀ (v : FValue) (sch : Option QSchema),
      enumSchemaMatch v sch = true → inferDataType v sch = .enum) ∧
    (∀ sch, enumSchemaMatch .fnull sch = false → inferDataType .fnull sch = .string) ∧
    (∀ sch, enumSchemaMatch .fundefined sch = false → inferDataType .fundefined sch = .string) ∧
    (∀ l sch, enumSchemaMatch (.farr l) sch = false → inferDataType (.farr l) sch = .array) ∧
    (∀ t sch, enumSchemaMatch (.fdate t) sch = false → inferDataType (.fdate t) sch = .date) ∧
    (∀ (s : String) (sch : Option QSchema),
      enumSchemaMatch (.fstr s) sch = false →
      numStrMatch (trimStr s).data = true →
      inferDataType (.fstr s) sch = .number) ∧
    (∀ (s : String) (sch : Option QSchema),
      enumSchemaMatch (.fstr s) sch = false →
      numStrMatch (trimStr s).data = false →
      (lowerStr s = "true" ∨ lowerStr s = "false") →
      inferDataType (.fstr s) sch = .boolean) ∧
    (∀ (s : String) (sch : Option QSchema) (j : JVal),
      enumSchemaMatch (.fstr s) sch = false →
      numStrMatch (trimStr s).data = false →
      lowerStr s ≠ "true" → lowerStr s ≠ "false" →
      parseJson s = some j → jIsObjArr j = true →
      inferDataType (.fstr s) sch = .json) ∧
    (∀ (s : String) (sch : Option QSchema) (j : JVal),
      enumSchemaMatch (.fstr s) sch = false →
      numStrMatch (trimStr s).data = false →
      lowerStr s ≠ "true" → lowerStr s ≠ "false" →
      parseJson s = some j → jIsObjArr j = false →
      inferDataType (.fstr s) sch = .string) ∧
    (∀ (s : String) (sch : Option QSchema),
      enumSchemaMatch (.fstr s) sch = false →
      numStrMatch (trimStr s).data = false →
      lowerStr s ≠ "true" → lowerStr s ≠ "false" →
      parseJson s = none →
      dateRegexMatch s.data = true → (jsDateParseIso s.data).isSome = true →
      inferDataType (.fstr s) sch = .date) ∧
    (∀ (s : String) (sch : Option QSchema),
      enumSchemaMatch (.fstr s) sch = false →
      numStrMatch (trimStr s).data = false →
      lowerStr s ≠ "true" → lowerStr s ≠ "false" →
      parseJson s = none →
      ¬ (dateRegexMatch s.data = true ∧ (jsDateParseIso s.data).isSome = true) →
      inferDataType (.fstr s) sch = .string) ∧
    (inferDataType (.fstr "123") none = .number ∧
     inferDataType (.fstr "true") none = .boolean ∧
     inferDataType (.fstr "2024-01-01") none = .date) := by
  refine ⟨?_, ?_, ?_, ?_, ?_, ?_, ?_, ?_, ?_, ?_, ?_, rfl, rfl, rfl⟩
  · intro v sch h
    simp [inferDataType, h]
  · intro sch h
    simp [inferDataType, h]
  · intro sch h
    simp [inferDataType, h]
  · intro l sch h
    simp [inferDataType, h]
  · intro t sch h
    simp [inferDataType, h]
  · intro s sch h hn
    simp [inferDataType, h, hn]
  · intro s sch h hn hb
    simp [inferDataType, h, hn, hb]
  · intro s sch j h hn hb1 hb2 hj hobj
    cases j <;> simp_all [inferDataType, jIsObjArr]
  · intro s sch j h hn hb1 hb2 hj hobj
    cases j <;> simp_all [inferDataType, jIsObjArr]
  · intro s sch h hn hb1 hb2 hj hd ho
    simp [inferDataType, h, hn, hb1, hb2, hj, hd, ho]
  · intro s sch h hn hb1 hb2 hj hno
    simp only [inferDataType, h, Bool.false_eq_true, if_false, hn, hb1, hb2, or_self, hj]
    rw [if_neg hno]

/-- C5 witness: the precedence clauses applied at concrete inputs — a term
matching a declared enum value, a numeric-looking string under a schema, a
boolean string, and a date-shaped string JSON.parse rejects. -/
theorem C5_infer_data_type_precedence_witness :
    inferDataType (.fstr "Active") (some (createEnumFilter "status" ["ACTIVE"])) = .enum ∧
    inferDataType (.fstr " 42 ") none = .number ∧
    inferDataType (.fstr "TRUE") none = .boolean ∧
    inferDataType (.fstr "2024-02-29") none = .date :=
  ⟨C5_infer_data_type_precedence.1 (.fstr "Active")
      (some (createEnumFilter "status" ["ACTIVE"])) rfl,
   (C5_infer_data_type_precedence.2.2.2.2.2.1) " 42 " none rfl rfl,
   (C5_infer_data_type_precedence.2.2.2.2.2.2.1) "TRUE" none rfl rfl (Or.inl rfl),
   (C5_infer_data_type_precedence.2.2.2.2.2.2.2.2.2.1) "2024-02-29" none rfl rfl
     (by decide) (by decide) rfl rfl rfl⟩

/-- C6: a page-based call fetches size rows at offset (page - 1) * size
(page defaulting to 1 and size to 25 through the Params defaults), the
totalCount comes from the dedicated count query over the same where clause,
and the returned pageMeta reports totalPages = ceil(totalCount / size),
currentPage = page and itemsPerPage = size; concretely, ten rows with size
3 yield totalPages 4 and page 4 holds exactly one row. -/
theorem C6_page_based_pagination :
    (∀ (args : QueryArgs) (o : PageOpts), 0 < o.size →
      pageFetchArgs args o =
        { whereQ := args.whereQ
          orderBy := o.orderBy
          skip := (o.page - 1) * o.size
          take := .tval (o.size : Int)
          cursor := none }) ∧
    (∀ (db : List Row) (args : QueryArgs) (o : PageOpts), 0 < o.size →
      handlePageBasedPagination db args o =
        { pageItems := some (dbFindMany db (pageFetchArgs args o))
          pageMeta := some
            { itemCount := (dbFindMany db (pageFetchArgs args o)).length
              totalItems := o.totalCount
              itemsPerPage := o.size
              totalPages := jsCeilDiv o.totalCount o.size
              currentPage := o.page } }) ∧
    (∀ (db : List Row) (args : QueryArgs) (params : Params),
      lowerStr (strBoolToStr params.isPaginated) ≠ "false" →
      params.paginationType = "page" →
      findManyPaginate db args params = .ok (handlePageBasedPagination db args
        { size := params.size
          page := params.page
          orderBy := resolveOrderBy (params.orderBy.getD (.ostr "createdAt")) params.direction
          totalCount := getTotalCount db args.whereQ })) ∧
    ((itemsOf (findManyPaginate db10 argsAll { size := 3, page := 4 })).map List.length =
        some 1 ∧
     metaOf (findManyPaginate db10 argsAll { size := 3, page := 4 }) =
        some { itemCount := 1, totalItems := 10, itemsPerPage := 3, totalPages := 4
               currentPage := 4 }) := by
  have hsz : ∀ o : PageOpts, 0 < o.size → (if o.size = 0 then 25 else o.size) = o.size :=
    fun o h => if_neg (Nat.pos_iff_ne_zero.mp h)
  refine ⟨?_, ?_, ?_, by decide, by decide⟩
  · intro args o h
    simp [pageFetchArgs, hsz o h]
  · intro db args o h
    simp [handlePageBasedPagination, hsz o h]
  · intro db args params hp ht
    simp [findManyPaginate, hp, ht]

/-- C6 witness: the fetch plan and metadata at the concrete ten-row
scenario. -/
theorem C6_page_based_pagination_witness :
    pageFetchArgs argsAll
      { size := 3, page := 4, orderBy := [("createdAt", .desc)], totalCount := 10 } =
      { whereQ := argsAll.whereQ
        orderBy := [("createdAt", .desc)]
        skip := 9
        take := .tval 3
        cursor := none } :=
  C6_page_based_pagination.1 argsAll
    { size := 3, page := 4, orderBy := [("createdAt", .desc)], totalCount := 10 }
    (by decide)

/-- C8: the string false or the boolean false in isPaginated makes
findManyPaginate return every matching row (the filtered collection in
resolved order) under pageItems with no pageMeta, no pageCursors, no
pageEdges and no totalCount, regardless of the supplied size, cursor, page
or paginationType. -/
theorem C8_disable_pagination :
    ∀ (db : List Row) (args : QueryArgs) (params : Params),
      (params.isPaginated = StrBool.sb false ∨ params.isPaginated = StrBool.ss "false") →
      findManyPaginate db args params = .ok
        { pageItems := some (sortRows
            (resolveOrderBy (params.orderBy.getD (.ostr "createdAt")) params.direction)
            (db.filter args.whereQ)) } ∧
      (∀ r : Row,
        r ∈ sortRows (resolveOrderBy (params.orderBy.getD (.ostr "createdAt")) params.direction)
            (db.filter args.whereQ) ↔ r ∈ db ∧ args.whereQ r = true) := by
  intro db args params h
  have hcond : lowerStr (strBoolToStr params.isPaginated) = "false" := by
    rcases h with h | h <;> rw [h] <;> rfl
  constructor
  · simp [findManyPaginate, hcond, dbFindMany]
  · intro r
    rw [mem_sortRows]
    simp [List.mem_filter]

/-- C8 witness: a disabled-pagination call on the Grace rows, with a size,
a page and a cursor-typed pagination all supplied and ignored. -/
theorem C8_disable_pagination_witness :
    findManyPaginate dbGrace argsAll
      { isPaginated := .ss "false", size := 1, page := 7, paginationType := "cursor" } =
      .ok { pageItems := some [rowC, rowB, rowA] } :=
  (C8_disable_pagination dbGrace argsAll
    { isPaginated := .ss "false", size := 1, page := 7, paginationType := "cursor" }
    (Or.inr rfl)).1

/-- C9 counterexample: in paginateMultipleResult the string false does not
disable pagination (the flattened two-row input is sliced to the single
requested row, so not every row is returned), and the boolean false still
returns a pageMeta object. -/
theorem C9_merger_counterexample :
    (paginateMultipleResult [[rowA, rowB]] { isPaginated := .ss "false", size := 1 }).pageItems
        = some [rowA] ∧
    ¬ (rowB ∈ [rowA]) ∧
    (paginateMultipleResult [[rowA, rowB]] { isPaginated := .sb false }).pageMeta ≠ none :=
  ⟨by decide, by decide, by decide⟩

/-- C9 amended: only the boolean false disables the Result Merger's
pagination — the flattened input is returned as a single page carrying a
pageMeta of one total page (and no pageCursors), with every input row
present; the string false is truthy there and leaves pagination on,
behaving exactly like true. -/
theorem C9_merger_disable :
    (∀ (dataArrays : List (List Row)) (params : Params),
      params.isPaginated = .sb false → params.orderBy = none →
      paginateMultipleResult dataArrays params =
        { pageItems := some dataArrays.flatten
          pageMeta := some
            { itemCount := dataArrays.flatten.length
              totalItems := dataArrays.flatten.length
              itemsPerPage := dataArrays.flatten.length
              totalPages := 1
              currentPage := 1 } }) ∧
    (∀ (dataArrays : List (List Row)) (params : Params),
      params.isPaginated = .sb false →
      ∀ r : Row, r ∈ ((paginateMultipleResult dataArrays params).pageItems.getD []) ↔
        r ∈ dataArrays.flatten) ∧
    (∀ (dataArrays : List (List Row)) (params : Params),
      params.isPaginated = .ss "false" →
      paginateMultipleResult dataArrays params =
        paginateMultipleResult dataArrays { params with isPaginated := .sb true }) := by
  refine ⟨?_, ?_, ?_⟩
  · intro das params h ho
    simp [paginateMultipleResult, h, ho, jsFalsySB]
  · intro das params h r
    cases horder : params.orderBy with
    | none => simp [paginateMultipleResult, horder, h, jsFalsySB]
    | some spec =>
      cases spec with
      | ostr s =>
        simp [paginateMultipleResult, horder, h, jsFalsySB, (sortRowsBy_perm _ _).mem_iff]
      | oobj l =>
        simp [paginateMultipleResult, horder, h, jsFalsySB, (sortRowsBy_perm _ _).mem_iff]
  · intro das params h
    have hf : jsFalsySB params.isPaginated = false := by rw [h]; rfl
    simp only [paginateMultipleResult, hf]
    rfl

/-- C9 witness: the boolean-false branch at the concrete two-row input. -/
theorem C9_merger_disable_witness :
    paginateMultipleResult [[rowA, rowB]] { isPaginated := .sb false } =
      { pageItems := some [rowA, rowB]
        pageMeta := some
          { itemCount := 2, totalItems := 2, itemsPerPage := 2, totalPages := 1
            currentPage := 1 } } :=
  C9_merger_disable.1 [[rowA, rowB]] { isPaginated := .sb false } rfl rfl

end Hymnal
